import Mathlib

/-!
# The two-intersection traffic simulation

A shallow embedding of `vehicle.h`, `intersection.h`, `parking.h`, `controller.h`
and of `intersection.cpp`, `parking.cpp`, `controller.cpp` and `vehicle.cpp`,
followed by the properties of the entry/exit protocol, of emergency preemption,
of the parking lots, of the light cycle and of the vehicle thread.

Modelling conventions.
* The C++ `int` fields are mathematical integers (`Int`).  The only arithmetic on
  `active_count` is `++` and a guarded `--`; signed overflow is undefined in C++
  and would need more than two thousand million vehicles inside at once.
* The mutex makes the body of every operation atomic, so an operation is a
  function from the state before to the state after.
* `pthread_cond_wait` hands the waiting thread the state of the intersection at
  its next wake-up; the states seen at successive wake-ups are an explicit list.
* A semaphore is its value, a natural number; `sem_trywait` fails and `sem_wait`
  blocks at zero.  A `sem_post` that follows a wait on the same semaphore finds
  it below `SEM_VALUE_MAX` and adds one (`sem_post`); the post of a release that
  no reservation matches is described with the limit (`sem_post_limited`).
* A thread that runs a loop is a step function on its program point.
* The global variables are the fields of one record, `World`.
* Console output and the UI hooks have no effect on the state and are left out.
-/

namespace Traffic

/-! ## Data model (`vehicle.h`, `intersection.h`) -/

/-- The two intersections of the system. -/
inductive IntersectionId where
  | F10
  | F11
  deriving DecidableEq, Repr

/-- Directions a vehicle can take at an intersection. -/
inductive Direction where
  | Straight
  | Left
  | Right
  deriving DecidableEq, Repr

/-- Types of vehicles in the simulation. -/
inductive VehicleType where
  | Ambulance
  | FireTruck
  | Bus
  | Car
  | Bike
  | Tractor
  deriving DecidableEq, Repr

/-- Core vehicle metadata (`struct Vehicle`). -/
structure Vehicle where
  id : Int
  type : VehicleType
  priority : Int
  arrival_time : Int
  originIntersection : IntersectionId
  destIntersection : IntersectionId
  direction : Direction
  wantsParking : Bool
  deriving DecidableEq, Repr

/-- Traffic light colours. -/
inductive LightColor where
  | RED
  | GREEN
  deriving DecidableEq, Repr

/-- The data fields of `struct Intersection`; the mutex and the condition
variable are represented by atomicity of the operations and by wake-up lists. -/
structure Intersection where
  id : IntersectionId
  busy : Bool
  light : LightColor
  emergency_preempt : Bool
  active_count : Int
  active_straight : Bool
  active_left : Bool
  active_right : Bool
  deriving DecidableEq, Repr

/-! ## Operations (`intersection.cpp`) -/

/-- The function `init_intersection(I, id)`: every data field is overwritten. -/
def init_intersection (I : Intersection) (id : IntersectionId) : Intersection :=
  { I with
    id := id
    busy := false
    light := LightColor.RED
    emergency_preempt := false
    active_count := 0
    active_straight := false
    active_left := false
    active_right := false }

/-- The local `isEmergency` of `enter_intersection`. -/
def isEmergency (v : Vehicle) : Bool :=
  v.type == VehicleType.Ambulance || v.type == VehicleType.FireTruck

/-- The local `canEnterNow` of the wait loop: `noActive || straightCompat`. -/
def canEnterNow (I : Intersection) (v : Vehicle) : Bool :=
  let noActive := decide (I.active_count = 0)
  let straightCompat :=
    (v.direction == Direction.Straight) && I.active_straight
      && !I.active_left && !I.active_right
  noActive || straightCompat

/-- One evaluation of the body of the wait loop of `enter_intersection`:
`true` when the loop is left through `break`. -/
def admitted (I : Intersection) (v : Vehicle) : Bool :=
  if isEmergency v then
    canEnterNow I v
  else
    let bus_red_override :=
      (v.type == VehicleType.Bus) && !I.emergency_preempt && canEnterNow I v
    (!I.emergency_preempt && I.light == LightColor.GREEN && canEnterNow I v)
      || bus_red_override

/-- The code of `enter_intersection` after the wait loop: register the
movement, increment the count, recompute `busy`. -/
def register_movement (I : Intersection) (v : Vehicle) : Intersection :=
  let I1 : Intersection :=
    if v.direction == Direction.Straight then { I with active_straight := true }
    else if v.direction == Direction.Left then { I with active_left := true }
    else { I with active_right := true }
  let I2 : Intersection := { I1 with active_count := I1.active_count + 1 }
  { I2 with busy := decide (I2.active_count > 0) }

/-- The function `enter_intersection(I, v)`.  The predicate is evaluated on the
current state `I`; when it fails the thread waits and re-evaluates on the state
seen at the next wake-up, the head of `wakes`.  The result is `none` when the
thread is still blocked after the last wake-up supplied. -/
def enter_intersection (v : Vehicle) : Intersection → List Intersection → Option Intersection
  | I, [] => if admitted I v then some (register_movement I v) else none
  | I, J :: wakes =>
    if admitted I v then some (register_movement I v) else enter_intersection v J wakes

/-- The function `leave_intersection(I, v)`. -/
def leave_intersection (I : Intersection) (v : Vehicle) : Intersection :=
  let I1 : Intersection :=
    if v.direction == Direction.Straight then { I with active_straight := false }
    else if v.direction == Direction.Left then { I with active_left := false }
    else { I with active_right := false }
  let I2 : Intersection :=
    if I1.active_count > 0 then { I1 with active_count := I1.active_count - 1 } else I1
  { I2 with busy := decide (I2.active_count > 0) }

/-- The static function `set_light(I, color, label)`. -/
def set_light (I : Intersection) (color : LightColor) : Intersection :=
  { I with light := color }

/-- The state change of `set_emergency_preempt` on the intersection it selects. -/
def set_preempt_flag (I : Intersection) (enabled : Bool) : Intersection :=
  { I with emergency_preempt := enabled }

/-! ## One intersection together with the vehicles inside it -/

/-- An intersection and the vehicles that were admitted and have not left. -/
structure Crossing where
  I : Intersection
  inside : List Vehicle
  deriving DecidableEq, Repr

/-- The operations that act on one intersection. -/
inductive Event where
  | enter (v : Vehicle)
  | leave (v : Vehicle)
  | light (color : LightColor)
  | preempt (enabled : Bool)
  deriving DecidableEq, Repr

/-- One operation on a crossing.  An `enter` is taken only when the admission
test succeeds; a `leave` only by a vehicle that is inside. -/
def step (s : Crossing) : Event → Option Crossing
  | Event.enter v =>
    if admitted s.I v then some ⟨register_movement s.I v, v :: s.inside⟩ else none
  | Event.leave v =>
    if v ∈ s.inside then some ⟨leave_intersection s.I v, s.inside.erase v⟩ else none
  | Event.light color => some ⟨set_light s.I color, s.inside⟩
  | Event.preempt enabled => some ⟨set_preempt_flag s.I enabled, s.inside⟩

/-- A sequence of operations, stopping with `none` at the first one not enabled. -/
def run (s : Crossing) : List Event → Option Crossing
  | [] => some s
  | e :: es => (step s e).bind (fun t => run t es)

/-- The crossing right after `init_intersection`. -/
def initCrossing (I0 : Intersection) (id : IntersectionId) : Crossing :=
  ⟨init_intersection I0 id, []⟩

/-- States reachable from `init_intersection` by enabled operations. -/
def Reachable (s : Crossing) : Prop :=
  ∃ (I0 : Intersection) (id : IntersectionId) (es : List Event),
    run (initCrossing I0 id) es = some s

/-- Vehicles call `enter_intersection` one after another, no wake-up being
needed by any of them and nobody leaving in between. -/
def enter_all : Intersection → List Vehicle → Option Intersection
  | I, [] => some I
  | I, v :: vs => (enter_intersection v I []).bind (fun J => enter_all J vs)

/-- The invariant of the entry/exit protocol: the count is the number of
vehicles inside, a vehicle turning left or right is inside alone with its flag
set, and a flag that is set has a vehicle of its direction inside. -/
structure Inv (s : Crossing) : Prop where
  count : s.I.active_count = s.inside.length
  left_in : ∀ v ∈ s.inside, v.direction = Direction.Left →
    s.I.active_left = true ∧ s.inside = [v]
  right_in : ∀ v ∈ s.inside, v.direction = Direction.Right →
    s.I.active_right = true ∧ s.inside = [v]
  left_flag : s.I.active_left = true → ∃ v ∈ s.inside, v.direction = Direction.Left
  right_flag : s.I.active_right = true → ∃ v ∈ s.inside, v.direction = Direction.Right
  straight_flag : s.I.active_straight = true →
    ∃ v ∈ s.inside, v.direction = Direction.Straight

/-! ## Sample data -/

/-- A vehicle with the given identity, type and direction, going from F10 to F10. -/
def mkVehicle (id : Int) (t : VehicleType) (d : Direction) : Vehicle :=
  { id := id, type := t, priority := 3, arrival_time := 0,
    originIntersection := IntersectionId.F10, destIntersection := IntersectionId.F10,
    direction := d, wantsParking := false }

/-- An arbitrary record to initialise. -/
def rawIntersection : Intersection :=
  { id := IntersectionId.F11, busy := true, light := LightColor.GREEN,
    emergency_preempt := true, active_count := 7, active_straight := true,
    active_left := true, active_right := true }

/-- Intersection F10 right after `init_intersection`. -/
def freshF10 : Crossing := initCrossing rawIntersection IntersectionId.F10

/-- Two cars going straight. -/
def carA : Vehicle := mkVehicle 1 VehicleType.Car Direction.Straight

/-- The second car going straight. -/
def carB : Vehicle := mkVehicle 2 VehicleType.Car Direction.Straight

/-- A third vehicle going straight, an ambulance. -/
def ambulanceC : Vehicle := mkVehicle 3 VehicleType.Ambulance Direction.Straight

/-- The light of F10 turns GREEN, two cars going straight enter one after the
other, and the first of them leaves while the second is still crossing. -/
def pairThenOneLeaves : List Event :=
  [Event.light LightColor.GREEN, Event.enter carA, Event.enter carB, Event.leave carA]

/-- The crossing after `pairThenOneLeaves`: `carB` is inside, the count is 1 and
every movement flag is false. -/
def afterOneLeft : Crossing :=
  { I := { id := IntersectionId.F10, busy := true, light := LightColor.GREEN,
           emergency_preempt := false, active_count := 1, active_straight := false,
           active_left := false, active_right := false },
    inside := [carB] }

/-- A fire truck turning left. -/
def truckL : Vehicle := mkVehicle 4 VehicleType.FireTruck Direction.Left

/-- The crossing after a fire truck turning left entered the fresh F10. -/
def leftTurnInside : Crossing :=
  ⟨register_movement freshF10.I truckL, [truckL]⟩

/-- The crossing after the light turned GREEN and two cars going straight entered. -/
def pairInside : Crossing :=
  ⟨register_movement (register_movement (set_light freshF10.I LightColor.GREEN) carA) carB,
    [carB, carA]⟩

/-- The fresh F10 after its light turned GREEN. -/
def greenF10 : Crossing := ⟨set_light freshF10.I LightColor.GREEN, []⟩

/-! ## The global state (`controller.h`, `parking.h`, `main.cpp`) -/

/-- Message types a controller sends and receives. -/
inductive ControllerSignal where
  | NORMAL
  | EMERGENCY_INCOMING
  | SHUTDOWN
  deriving DecidableEq, Repr

/-- The data fields of `struct ParkingLot`.  The two semaphores are their
values, which are never negative; `state_lock` is represented by atomicity of
the statements it protects. -/
structure ParkingLot where
  name : String
  max_spots : Int
  max_queue : Int
  available_spots : Nat
  waiting_slots : Nat
  current_spots : Int
  deriving DecidableEq, Repr

/-- The global variables of the program: the two intersections, the two parking
lots, and for each pipe the messages written to it so far. -/
structure World where
  F10_intersection : Intersection
  F11_intersection : Intersection
  F10_parking : ParkingLot
  F11_parking : ParkingLot
  pipeF10toF11 : List ControllerSignal
  pipeF11toF10 : List ControllerSignal
  deriving DecidableEq, Repr

/-- The pointer selection `(id == F10) ? &F10_intersection : &F11_intersection`. -/
def World.intersection (w : World) (id : IntersectionId) : Intersection :=
  if id == IntersectionId.F10 then w.F10_intersection else w.F11_intersection

/-- Write through the pointer selected by `id`. -/
def World.setIntersection (w : World) (id : IntersectionId) (I : Intersection) : World :=
  if id == IntersectionId.F10 then { w with F10_intersection := I }
  else { w with F11_intersection := I }

/-- The intersection that is not `id`. -/
def otherId : IntersectionId → IntersectionId
  | IntersectionId.F10 => IntersectionId.F11
  | IntersectionId.F11 => IntersectionId.F10

/-- The function `set_emergency_preempt(id, enabled)`. -/
def set_emergency_preempt (w : World) (id : IntersectionId) (enabled : Bool) : World :=
  w.setIntersection id (set_preempt_flag (w.intersection id) enabled)

/-- The function `is_emergency_preempt(id)`. -/
def is_emergency_preempt (w : World) (id : IntersectionId) : Bool :=
  (w.intersection id).emergency_preempt

/-- The function `notify_emergency_from_to(from, to)` of `controller.cpp`: the
preemption of the destination and the message written to the pipe. -/
def notify_emergency_from_to (w : World) (from_id to_id : IntersectionId) : World :=
  if from_id == to_id then w
  else if from_id == IntersectionId.F10 && to_id == IntersectionId.F11 then
    let w1 := set_emergency_preempt w IntersectionId.F11 true
    { w1 with pipeF10toF11 := w1.pipeF10toF11 ++ [ControllerSignal.EMERGENCY_INCOMING] }
  else if from_id == IntersectionId.F11 && to_id == IntersectionId.F10 then
    let w1 := set_emergency_preempt w IntersectionId.F10 true
    { w1 with pipeF11toF10 := w1.pipeF11toF10 ++ [ControllerSignal.EMERGENCY_INCOMING] }
  else w

/-! ## Parking lots (`parking.cpp`) -/

/-- The call `sem_trywait`: the decremented value, or `none` when the value is
zero and the call fails.  A `sem_wait` that does not block is the same step. -/
def sem_trywait (s : Nat) : Option Nat :=
  if s > 0 then some (s - 1) else none

/-- The call `sem_post` on a value below `SEM_VALUE_MAX`, where it succeeds.  A
post that follows a successful wait on the same semaphore is of this kind;
`sem_post_limited` is the call at any value. -/
def sem_post (s : Nat) : Nat := s + 1

/-- The limit `SEM_VALUE_MAX` of the value of a semaphore, which is also the
greatest `int`. -/
def SEM_VALUE_MAX : Nat := 2147483647

/-- The least `int`. -/
def INT_MIN : Int := -2147483648

/-- The call `sem_post` at any value: at `SEM_VALUE_MAX` it fails with EOVERFLOW
and leaves the value as it is, and the program does not look at its result. -/
def sem_post_limited (s : Nat) : Nat :=
  if s < SEM_VALUE_MAX then s + 1 else s

/-- The function `init_parking_lot(lot, name, spots, queueSize)`.  `sem_init`
takes an unsigned value; it fails for a negative `int`, a case no property
below covers. -/
def init_parking_lot (lot : ParkingLot) (name : String) (spots queueSize : Int) : ParkingLot :=
  { lot with
    name := name
    max_spots := spots
    max_queue := queueSize
    current_spots := 0
    available_spots := spots.toNat
    waiting_slots := queueSize.toNat }

/-- Does the text begin with the pattern? -/
def startsWithChars : List Char → List Char → Bool
  | [], _ => true
  | _ :: _, [] => false
  | p :: ps, c :: cs => p == c && startsWithChars ps cs

/-- The test `text.find(pattern) != string::npos`. -/
def findChars (pattern : List Char) : List Char → Bool
  | [] => startsWithChars pattern []
  | c :: cs => startsWithChars pattern (c :: cs) || findChars pattern cs

/-- The local `originId` of `reserve_parking_spot`: F10 when the name of the lot
contains the text F10, else F11. -/
def originId (lot : ParkingLot) : IntersectionId :=
  if findChars "F10".toList lot.name.toList then IntersectionId.F10 else IntersectionId.F11

/-- The statement `sem_trywait(&lot.waiting_slots)`; `none` when it fails. -/
def trywait_waiting_slots (lot : ParkingLot) : Option ParkingLot :=
  (sem_trywait lot.waiting_slots).map (fun q => { lot with waiting_slots := q })

/-- The statement `sem_wait(&lot.available_spots)` when a spot is free; `none`
when the caller has to block. -/
def take_available_spot (lot : ParkingLot) : Option ParkingLot :=
  (sem_trywait lot.available_spots).map (fun a => { lot with available_spots := a })

/-- The blocking `sem_wait(&lot.available_spots)`: when no spot is free the
thread sleeps and tries again on the state of the lot at its next wake-up, the
head of `wakes`; `none` when it is still blocked after the last one. -/
def wait_available_spots : ParkingLot → List ParkingLot → Option ParkingLot
  | lot, [] => take_available_spot lot
  | lot, next :: wakes =>
    match take_available_spot lot with
    | some got => some got
    | none => wait_available_spots next wakes

/-- The statement `sem_post(&lot.waiting_slots)`. -/
def post_waiting_slots (lot : ParkingLot) : ParkingLot :=
  { lot with waiting_slots := sem_post lot.waiting_slots }

/-- The statement `lot.current_spots++` under `state_lock`. -/
def inc_current_spots (lot : ParkingLot) : ParkingLot :=
  { lot with current_spots := lot.current_spots + 1 }

/-- The statement `lot.current_spots--` under `state_lock`. -/
def dec_current_spots (lot : ParkingLot) : ParkingLot :=
  { lot with current_spots := lot.current_spots - 1 }

/-- The statement `sem_post(&lot.available_spots)`. -/
def post_available_spots (lot : ParkingLot) : ParkingLot :=
  { lot with available_spots := sem_post lot.available_spots }

/-- The function `reserve_parking_spot(lot, v)`: the value returned and the lot
afterwards, or `none` while the caller is blocked waiting for a spot.  `wakes`
are the states of the lot at the wake-ups of `sem_wait`. -/
def reserve_parking_spot (w : World) (lot : ParkingLot) (_v : Vehicle)
    (wakes : List ParkingLot) : Option (Bool × ParkingLot) :=
  if is_emergency_preempt w (originId lot) then some (false, lot)
  else
    match trywait_waiting_slots lot with
    | none => some (false, lot)
    | some queued =>
      (wait_available_spots queued wakes).map
        (fun got => (true, inc_current_spots (post_waiting_slots got)))

/-- The lot while `reserve_parking_spot` is blocked in `sem_wait`: the state
after the successful `sem_trywait(&lot.waiting_slots)`, if the call gets there. -/
def reserve_waiting_state (w : World) (lot : ParkingLot) : Option ParkingLot :=
  if is_emergency_preempt w (originId lot) then none else trywait_waiting_slots lot

/-- The function `use_and_release_parking(lot, v)` called by a vehicle that
holds a spot, so that the free spots are below the limit and `sem_post` succeeds. -/
def use_and_release_parking (lot : ParkingLot) (_v : Vehicle) : ParkingLot :=
  post_available_spots (dec_current_spots lot)

/-- The function `use_and_release_parking(lot, v)` in any state of the lot,
matched by a reservation or not: `current_spots--`, then a `sem_post` that fails
when the free spots are at `SEM_VALUE_MAX`. -/
def use_and_release_parking_limited (lot : ParkingLot) (_v : Vehicle) : ParkingLot :=
  { dec_current_spots lot with
    available_spots := sem_post_limited (dec_current_spots lot).available_spots }

/-! ## A parking lot shared by many threads

The calls of different threads interleave statement by statement.  The threads
are anonymous: the state records how many of them are at each program point. -/

/-- A lot together with the number of threads at each program point. -/
structure LotState where
  lot : ParkingLot
  /-- Threads in `reserve_parking_spot` holding a waiting slot, before `sem_wait` returns. -/
  queued : Nat
  /-- Threads past `sem_wait`, before `sem_post(&lot.waiting_slots)`. -/
  granted : Nat
  /-- Threads past `sem_post(&lot.waiting_slots)`, before `current_spots++`. -/
  posted : Nat
  /-- Vehicles whose reserve returned `true` and which have not begun to release. -/
  parked : Nat
  /-- Threads in `use_and_release_parking` past `current_spots--`, before `sem_post`. -/
  leaving : Nat
  deriving DecidableEq, Repr

/-- The atomic statements of the two parking functions. -/
inductive LotEvent where
  /-- A new call of `reserve_parking_spot` up to its first return or to `sem_wait`;
  `preempt` is the value read by `is_emergency_preempt`. -/
  | request (preempt : Bool)
  | take_spot
  | leave_queue
  | count_in
  | count_out
  | free_spot
  deriving DecidableEq, Repr

/-- One atomic statement of some thread; `none` when no thread can take it. -/
def lotStep (s : LotState) : LotEvent → Option LotState
  | LotEvent.request preempt =>
    if preempt then some s
    else
      match trywait_waiting_slots s.lot with
      | none => some s
      | some l => some { s with lot := l, queued := s.queued + 1 }
  | LotEvent.take_spot =>
    if s.queued > 0 then
      (take_available_spot s.lot).map
        (fun l => { s with lot := l, queued := s.queued - 1, granted := s.granted + 1 })
    else none
  | LotEvent.leave_queue =>
    if s.granted > 0 then
      some { s with lot := post_waiting_slots s.lot, granted := s.granted - 1,
                    posted := s.posted + 1 }
    else none
  | LotEvent.count_in =>
    if s.posted > 0 then
      some { s with lot := inc_current_spots s.lot, posted := s.posted - 1,
                    parked := s.parked + 1 }
    else none
  | LotEvent.count_out =>
    if s.parked > 0 then
      some { s with lot := dec_current_spots s.lot, parked := s.parked - 1,
                    leaving := s.leaving + 1 }
    else none
  | LotEvent.free_spot =>
    if s.leaving > 0 then
      some { s with lot := post_available_spots s.lot, leaving := s.leaving - 1 }
    else none

/-- A sequence of atomic statements. -/
def lotRun (s : LotState) : List LotEvent → Option LotState
  | [] => some s
  | e :: es => (lotStep s e).bind (fun t => lotRun t es)

/-- The lot right after `init_parking_lot`, no call being in progress. -/
def initLot (lot0 : ParkingLot) (name : String) (spots queueSize : Int) : LotState :=
  { lot := init_parking_lot lot0 name spots queueSize,
    queued := 0, granted := 0, posted := 0, parked := 0, leaving := 0 }

/-- The invariant of the parking protocol, counting the threads in progress. -/
structure LotInv (spots queueSize : Int) (s : LotState) : Prop where
  max_spots_eq : s.lot.max_spots = spots
  max_queue_eq : s.lot.max_queue = queueSize
  spots_sum :
    s.lot.available_spots + s.granted + s.posted + s.parked + s.leaving = spots.toNat
  queue_sum : s.lot.waiting_slots + s.queued + s.granted = queueSize.toNat
  current_eq : s.lot.current_spots = s.parked

/-! ## Sample lots and worlds -/

/-- An arbitrary record to initialise as a lot. -/
def rawLot : ParkingLot :=
  { name := "", max_spots := 3, max_queue := 4, available_spots := 9,
    waiting_slots := 9, current_spots := 6 }

/-- The globals after the initialisation done by `main`. -/
def world0 : World :=
  { F10_intersection := init_intersection rawIntersection IntersectionId.F10,
    F11_intersection := init_intersection rawIntersection IntersectionId.F11,
    F10_parking := init_parking_lot rawLot "F10 Parking Lot" 10 5,
    F11_parking := init_parking_lot rawLot "F11 Parking Lot" 10 5,
    pipeF10toF11 := [],
    pipeF11toF10 := [] }

/-- The globals of `world0` while F10 is preempted. -/
def worldPreemptF10 : World := set_emergency_preempt world0 IntersectionId.F10 true

/-- A lot with no waiting slot. -/
def lotNoQueue : LotState := initLot rawLot "F10 Parking Lot" 2 0

/-- A lot with one spot and one waiting slot. -/
def lotOneOne : LotState := initLot rawLot "F10 Parking Lot" 1 1

/-- Two complete reservations are requested at `lotOneOne`; the second one is
queued while the first vehicle is parked, and gets the spot after its release. -/
def twoReservations : List LotEvent :=
  [LotEvent.request false, LotEvent.take_spot, LotEvent.leave_queue, LotEvent.count_in,
   LotEvent.request false, LotEvent.count_out, LotEvent.free_spot,
   LotEvent.take_spot, LotEvent.leave_queue, LotEvent.count_in]

/-! ## The vehicle thread (`vehicle.cpp`) -/

/-- The calls that `vehicle_thread_func` makes into the core.  A call of
`reserve_parking_spot` is recorded with the value it returned. -/
inductive Op where
  | reserve_parking_spot (lot : IntersectionId) (result : Bool)
  | notify_emergency_from_to (from_id to_id : IntersectionId)
  | enter_intersection (id : IntersectionId)
  | leave_intersection (id : IntersectionId)
  | set_emergency_preempt (id : IntersectionId) (enabled : Bool)
  | use_and_release_parking (lot : IntersectionId)
  deriving DecidableEq, Repr

/-- The function `vehicle_thread_func`: the calls into the core in program
order, `reserveResult` being what `reserve_parking_spot` returns if it is
called.  The pointers `I` and `lot` are both chosen by `originIntersection`. -/
def vehicle_thread_func (v : Vehicle) (reserveResult : Bool) : List Op :=
  let origin := v.originIntersection
  let asksParking :=
    v.wantsParking && v.type != VehicleType.Ambulance && v.type != VehicleType.FireTruck
  let hasReservedParking := asksParking && reserveResult
  let crossEmergency :=
    (v.type == VehicleType.Ambulance || v.type == VehicleType.FireTruck)
      && v.originIntersection != v.destIntersection
  (if asksParking then [Op.reserve_parking_spot origin reserveResult] else [])
    ++ (if crossEmergency then [Op.notify_emergency_from_to origin v.destIntersection] else [])
    ++ [Op.enter_intersection origin, Op.leave_intersection origin]
    ++ (if crossEmergency then [Op.set_emergency_preempt v.destIntersection false] else [])
    ++ (if hasReservedParking then [Op.use_and_release_parking origin] else [])

/-- Is the call one that can write an `emergency_preempt` flag? -/
def Op.writesPreempt : Op → Bool
  | Op.notify_emergency_from_to _ _ => true
  | Op.set_emergency_preempt _ _ => true
  | _ => false

/-- The lot selected together with the intersection `id`. -/
def World.lot (w : World) (id : IntersectionId) : ParkingLot :=
  if id == IntersectionId.F10 then w.F10_parking else w.F11_parking

/-- Write through the lot pointer selected by `id`. -/
def World.setLot (w : World) (id : IntersectionId) (lot : ParkingLot) : World :=
  if id == IntersectionId.F10 then { w with F10_parking := lot }
  else { w with F11_parking := lot }

/-- One call of vehicle `v` on the globals, taken when it can return at once:
an `enter_intersection` when the vehicle is admitted in the current state, a
`reserve_parking_spot` when it returns the recorded value without having to
block.  `none` when the call cannot be taken now. -/
def exec (v : Vehicle) (w : World) : Op → Option World
  | Op.reserve_parking_spot lot result =>
    match reserve_parking_spot w (w.lot lot) v [] with
    | some (r, got) => if r == result then some (w.setLot lot got) else none
    | none => none
  | Op.notify_emergency_from_to from_id to_id =>
    some (notify_emergency_from_to w from_id to_id)
  | Op.enter_intersection id =>
    (enter_intersection v (w.intersection id) []).map (fun J => w.setIntersection id J)
  | Op.leave_intersection id =>
    some (w.setIntersection id (leave_intersection (w.intersection id) v))
  | Op.set_emergency_preempt id enabled => some (set_emergency_preempt w id enabled)
  | Op.use_and_release_parking lot =>
    some (w.setLot lot (use_and_release_parking (w.lot lot) v))

/-- The calls of one vehicle one after another, no other thread running. -/
def execOps (v : Vehicle) (w : World) : List Op → Option World
  | [] => some w
  | op :: ops => (exec v w op).bind (fun w1 => execOps v w1 ops)

/-- A vehicle thread: its vehicle, the value its reserve call returns, and the
number of calls it has completed. -/
structure Agent where
  v : Vehicle
  reserveResult : Bool
  pc : Nat
  deriving DecidableEq, Repr

/-- The calls the thread has completed. -/
def Agent.done (a : Agent) : List Op :=
  (vehicle_thread_func a.v a.reserveResult).take a.pc

/-- The globals and the vehicle threads. -/
structure Sys where
  world : World
  agents : List Agent
  deriving DecidableEq, Repr

/-- Thread number `i` makes its next call; `none` when there is no such thread,
when it has finished, or when the call cannot be taken now. -/
def agentStep (s : Sys) (i : Nat) : Option Sys :=
  match s.agents.get? i with
  | none => none
  | some a =>
    match (vehicle_thread_func a.v a.reserveResult).get? a.pc with
    | none => none
    | some op =>
      (exec a.v s.world op).map
        (fun w => { world := w, agents := s.agents.set i { a with pc := a.pc + 1 } })

/-- An interleaving: the threads step in the order given. -/
def schedule (s : Sys) : List Nat → Option Sys
  | [] => some s
  | i :: is => (agentStep s i).bind (fun t => schedule t is)

/-- The thread is that of an emergency vehicle bound for `B` from the other
intersection which has made its preempting call and not yet its clearing call. -/
def Agent.inboundTo (a : Agent) (B : IntersectionId) : Bool :=
  isEmergency a.v && a.v.destIntersection == B && a.v.originIntersection != B
    && a.done.contains (Op.notify_emergency_from_to a.v.originIntersection B)
    && !a.done.contains (Op.set_emergency_preempt B false)

/-! ## Sample vehicles and threads -/

/-- An ambulance going straight from F10 to F11. -/
def ambulanceX : Vehicle :=
  { mkVehicle 11 VehicleType.Ambulance Direction.Straight with
    priority := 0, destIntersection := IntersectionId.F11 }

/-- A second ambulance going straight from F10 to F11. -/
def ambulanceY : Vehicle :=
  { mkVehicle 12 VehicleType.Ambulance Direction.Straight with
    priority := 0, destIntersection := IntersectionId.F11 }

/-- A bus going straight at F11. -/
def busF11 : Vehicle :=
  { mkVehicle 13 VehicleType.Bus Direction.Straight with
    priority := 2, originIntersection := IntersectionId.F11,
    destIntersection := IntersectionId.F11 }

/-- The initial globals with the threads of the two ambulances, none started. -/
def twoAmbulances : Sys :=
  { world := world0,
    agents := [{ v := ambulanceX, reserveResult := false, pc := 0 },
               { v := ambulanceY, reserveResult := false, pc := 0 }] }

/-- Both ambulances preempt F11, then the first one crosses F10 and clears F11
while the second has not yet entered F10. -/
def firstClearsWhileSecondInbound : List Nat := [0, 1, 0, 0, 0]

/-! ## The traffic light manager (`intersection.cpp`) -/

/-- The call `set_light(I, color, label)` on the global intersection `id`. -/
def set_light_at (w : World) (id : IntersectionId) (color : LightColor) : World :=
  w.setIntersection id (set_light (w.intersection id) color)

/-- The program points of `traffic_light_manager`, each named after the
statement the thread executes next. -/
inductive ManagerPc where
  /-- Next: `set_light(F10_intersection, GREEN, "Initial")`. -/
  | initF10
  /-- Next: `set_light(F11_intersection, RED, "Initial")`. -/
  | initF11
  /-- Next: the test of `while (traffic_running)`. -/
  | whileTest
  /-- Next: the first `sleep(3); if (!traffic_running) break;`. -/
  | firstCheck
  /-- Next: `set_light(F10_intersection, RED, "Cycle")`. -/
  | cycleF10red
  /-- Next: `set_light(F11_intersection, GREEN, "Cycle")`. -/
  | cycleF11green
  /-- Next: the second `sleep(3); if (!traffic_running) break;`. -/
  | secondCheck
  /-- Next: `set_light(F10_intersection, GREEN, "Cycle")`. -/
  | cycleF10green
  /-- Next: `set_light(F11_intersection, RED, "Cycle")`. -/
  | cycleF11red
  /-- The thread function has returned. -/
  | returned
  deriving DecidableEq, Repr

/-- The globals together with the static `traffic_running`, the program point of
the manager thread, and the number of phase changes it has completed (a counter
for stating properties; the program has no such variable). -/
structure LightSystem where
  world : World
  traffic_running : Bool
  pc : ManagerPc
  phase : Nat
  deriving DecidableEq, Repr

/-- The function `start_traffic_lights()`. -/
def start_traffic_lights (w : World) : LightSystem :=
  { world := w, traffic_running := true, pc := ManagerPc.initF10, phase := 0 }

/-- The function `stop_traffic_lights()`: the flag is cleared; the two broadcasts
wake the waiting vehicles without changing any field, and `pthread_join` waits
for the manager to return. -/
def stop_traffic_lights (s : LightSystem) : LightSystem :=
  { s with traffic_running := false }

/-- One statement of `traffic_light_manager`; `none` once it has returned. -/
def traffic_light_manager (s : LightSystem) : Option LightSystem :=
  match s.pc with
  | ManagerPc.initF10 =>
    some { s with world := set_light_at s.world IntersectionId.F10 LightColor.GREEN,
                  pc := ManagerPc.initF11 }
  | ManagerPc.initF11 =>
    some { s with world := set_light_at s.world IntersectionId.F11 LightColor.RED,
                  pc := ManagerPc.whileTest }
  | ManagerPc.whileTest =>
    some { s with pc := if s.traffic_running then ManagerPc.firstCheck else ManagerPc.returned }
  | ManagerPc.firstCheck =>
    some { s with pc := if s.traffic_running then ManagerPc.cycleF10red else ManagerPc.returned }
  | ManagerPc.cycleF10red =>
    some { s with world := set_light_at s.world IntersectionId.F10 LightColor.RED,
                  pc := ManagerPc.cycleF11green }
  | ManagerPc.cycleF11green =>
    some { s with world := set_light_at s.world IntersectionId.F11 LightColor.GREEN,
                  pc := ManagerPc.secondCheck, phase := s.phase + 1 }
  | ManagerPc.secondCheck =>
    some { s with
      pc := if s.traffic_running then ManagerPc.cycleF10green else ManagerPc.returned }
  | ManagerPc.cycleF10green =>
    some { s with world := set_light_at s.world IntersectionId.F10 LightColor.GREEN,
                  pc := ManagerPc.cycleF11red }
  | ManagerPc.cycleF11red =>
    some { s with world := set_light_at s.world IntersectionId.F11 LightColor.RED,
                  pc := ManagerPc.whileTest, phase := s.phase + 1 }
  | ManagerPc.returned => none

/-- A step of the light system: a statement of the manager, or the main thread
calling `stop_traffic_lights`. -/
inductive LightEvent where
  | manager
  | stop
  deriving DecidableEq, Repr

/-- One step of the light system. -/
def lightStep (s : LightSystem) : LightEvent → Option LightSystem
  | LightEvent.manager => traffic_light_manager s
  | LightEvent.stop => some (stop_traffic_lights s)

/-- A sequence of steps of the light system. -/
def lightRun (s : LightSystem) : List LightEvent → Option LightSystem
  | [] => some s
  | e :: es => (lightStep s e).bind (fun t => lightRun t es)

/-- The manager is not between the two `set_light` calls of the initial setting
or of a phase change, and the initial setting is done. -/
def ManagerPc.settled : ManagerPc → Bool
  | ManagerPc.initF10 => false
  | ManagerPc.initF11 => false
  | ManagerPc.cycleF11green => false
  | ManagerPc.cycleF11red => false
  | _ => true

/-- The initial setting is done. -/
def ManagerPc.pastInitial : ManagerPc → Bool
  | ManagerPc.initF10 => false
  | ManagerPc.initF11 => false
  | _ => true

/-- The light of F10. -/
def LightSystem.lightF10 (s : LightSystem) : LightColor := s.world.F10_intersection.light

/-- The light of F11. -/
def LightSystem.lightF11 (s : LightSystem) : LightColor := s.world.F11_intersection.light

/-- What holds of the lights at each program point of the manager. -/
def LightInv (s : LightSystem) : Prop :=
  match s.pc with
  | ManagerPc.initF10 => s.phase = 0
  | ManagerPc.initF11 => s.phase = 0 ∧ s.lightF10 = LightColor.GREEN
  | ManagerPc.whileTest =>
    s.lightF10 = LightColor.GREEN ∧ s.lightF11 = LightColor.RED ∧ s.phase % 2 = 0
  | ManagerPc.firstCheck =>
    s.lightF10 = LightColor.GREEN ∧ s.lightF11 = LightColor.RED ∧ s.phase % 2 = 0
  | ManagerPc.cycleF10red =>
    s.lightF10 = LightColor.GREEN ∧ s.lightF11 = LightColor.RED ∧ s.phase % 2 = 0
  | ManagerPc.cycleF11green =>
    s.lightF10 = LightColor.RED ∧ s.lightF11 = LightColor.RED ∧ s.phase % 2 = 0
  | ManagerPc.secondCheck =>
    s.lightF10 = LightColor.RED ∧ s.lightF11 = LightColor.GREEN ∧ s.phase % 2 = 1
  | ManagerPc.cycleF10green =>
    s.lightF10 = LightColor.RED ∧ s.lightF11 = LightColor.GREEN ∧ s.phase % 2 = 1
  | ManagerPc.cycleF11red =>
    s.lightF10 = LightColor.GREEN ∧ s.lightF11 = LightColor.GREEN ∧ s.phase % 2 = 1
  | ManagerPc.returned =>
    (s.lightF10 = LightColor.GREEN ∧ s.lightF11 = LightColor.RED ∧ s.phase % 2 = 0)
      ∨ (s.lightF10 = LightColor.RED ∧ s.lightF11 = LightColor.GREEN ∧ s.phase % 2 = 1)

/-- The manager runs undisturbed for `n` statements. -/
def managerTicks (n : Nat) : List LightEvent := List.replicate n LightEvent.manager

/-- A car going straight at F11. -/
def carAtF11 : Vehicle :=
  { mkVehicle 21 VehicleType.Car Direction.Straight with
    originIntersection := IntersectionId.F11, destIntersection := IntersectionId.F11 }

/-- The manager makes the initial setting, `stop_traffic_lights` is called while
F11 is RED, and the manager sees the cleared flag and returns. -/
def stopDuringFirstPhase : List LightEvent :=
  [LightEvent.manager, LightEvent.manager, LightEvent.stop, LightEvent.manager]

/-- The light system after `stopDuringFirstPhase` on the initial globals. -/
def stoppedAtRed : LightSystem :=
  { world := set_light_at (set_light_at world0 IntersectionId.F10 LightColor.GREEN)
      IntersectionId.F11 LightColor.RED,
    traffic_running := false, pc := ManagerPc.returned, phase := 0 }

/-- The lot `lotOneOne` once vehicle X holds its only spot. -/
def lotSpotTaken : ParkingLot :=
  { name := "F10 Parking Lot", max_spots := 1, max_queue := 1,
    available_spots := 0, waiting_slots := 1, current_spots := 1 }

/-- The lot `lotSpotTaken` while vehicle Y waits for the spot. -/
def lotWhileWaiting : ParkingLot :=
  { name := "F10 Parking Lot", max_spots := 1, max_queue := 1,
    available_spots := 0, waiting_slots := 0, current_spots := 1 }

/-- A lot set up with as many spots as an `int` can count. -/
def lotAtLimit : ParkingLot := init_parking_lot rawLot "F10 Parking Lot" 2147483647 5

/-- A lot set up with the empty name. -/
def lotNoName : ParkingLot := init_parking_lot rawLot "" 10 5

/-- A lot set up with a name that mentions both intersections. -/
def lotBothNames : ParkingLot := init_parking_lot rawLot "F11 and F10" 10 5

/-! ## Kinds of calls, and vehicle generation (`vehicle.cpp`) -/

/-- Is the call an `enter_intersection`? -/
def Op.isEnter : Op → Bool
  | Op.enter_intersection _ => true
  | _ => false

/-- Is the call a `leave_intersection`? -/
def Op.isLeave : Op → Bool
  | Op.leave_intersection _ => true
  | _ => false

/-- Is the call a `reserve_parking_spot`? -/
def Op.isReserve : Op → Bool
  | Op.reserve_parking_spot _ _ => true
  | _ => false

/-- Is the call a `use_and_release_parking`? -/
def Op.isRelease : Op → Bool
  | Op.use_and_release_parking _ => true
  | _ => false

/-- The function `compute_priority`. -/
def compute_priority (type : VehicleType) : Int :=
  if type == VehicleType.Ambulance then 0
  else if type == VehicleType.FireTruck then 1
  else if type == VehicleType.Bus then 2
  else 3

/-- The function `rand_int(min, max)`, `r` being the value returned by `rand()`. -/
def rand_int (min max : Int) (r : Nat) : Int :=
  min + (r : Int) % (max - min + 1)

/-- The conversion `static_cast<VehicleType>`; `none` for a number that is not
the value of an enumerator. -/
def vehicleTypeOfInt (n : Int) : Option VehicleType :=
  if n = 0 then some VehicleType.Ambulance
  else if n = 1 then some VehicleType.FireTruck
  else if n = 2 then some VehicleType.Bus
  else if n = 3 then some VehicleType.Car
  else if n = 4 then some VehicleType.Bike
  else if n = 5 then some VehicleType.Tractor
  else none

/-- The conversion `static_cast<Direction>`; `none` for a number that is not the
value of an enumerator. -/
def directionOfInt (n : Int) : Option Direction :=
  if n = 0 then some Direction.Straight
  else if n = 1 then some Direction.Left
  else if n = 2 then some Direction.Right
  else none

/-- What `make_random_vehicle` takes from outside: the values of `rand()` behind
the two `rand_int` calls, the outcomes of the three `rand_bool` calls (a
comparison of floats), and the value of `time(NULL)`. -/
structure Draws where
  typeRand : Nat
  originBool : Bool
  destBool : Bool
  dirRand : Nat
  parkBool : Bool
  now : Int
  deriving DecidableEq, Repr

/-- The function `make_random_vehicle(id)`. -/
def make_random_vehicle (id : Int) (d : Draws) : Option Vehicle :=
  match vehicleTypeOfInt (rand_int 0 5 d.typeRand), directionOfInt (rand_int 0 2 d.dirRand) with
  | some type, some dir =>
    let origin := if d.originBool then IntersectionId.F10 else IntersectionId.F11
    let dest := if d.destBool then IntersectionId.F10 else IntersectionId.F11
    let parkingAllowed :=
      type == VehicleType.Car || type == VehicleType.Bike || type == VehicleType.Bus
        || type == VehicleType.Tractor
    let wantsParking := parkingAllowed && d.parkBool
    some { id := id, type := type, priority := compute_priority type,
           arrival_time := d.now, originIntersection := origin, destIntersection := dest,
           direction := dir, wantsParking := wantsParking }
  | _, _ => none

/-- An ambulance that has `wantsParking` set. -/
def ambulanceWantsParking : Vehicle :=
  { mkVehicle 31 VehicleType.Ambulance Direction.Left with priority := 0, wantsParking := true }

/-- A bus that wants to park. -/
def busWantsParking : Vehicle :=
  { mkVehicle 32 VehicleType.Bus Direction.Right with priority := 2, wantsParking := true }

/-- Draws that pick a fire truck and answer yes to every `rand_bool`. -/
def drawsFireTruck : Draws :=
  { typeRand := 7, originBool := true, destBool := true, dirRand := 4, parkBool := true,
    now := 0 }

/-! ## Field lemmas -/

section FieldLemmas

variable (I : Intersection) (v : Vehicle)

@[simp] theorem register_movement_active_count :
    (register_movement I v).active_count = I.active_count + 1 := by
  unfold register_movement
  cases v.direction <;> simp

@[simp] theorem register_movement_light :
    (register_movement I v).light = I.light := by
  unfold register_movement
  cases v.direction <;> simp

@[simp] theorem register_movement_preempt :
    (register_movement I v).emergency_preempt = I.emergency_preempt := by
  unfold register_movement
  cases v.direction <;> simp

@[simp] theorem register_movement_busy :
    (register_movement I v).busy = decide (I.active_count + 1 > 0) := by
  unfold register_movement
  cases v.direction <;> simp

theorem register_movement_straight :
    (register_movement I v).active_straight
      = (decide (v.direction = Direction.Straight) || I.active_straight) := by
  unfold register_movement
  cases v.direction <;> simp

theorem register_movement_left :
    (register_movement I v).active_left
      = (decide (v.direction = Direction.Left) || I.active_left) := by
  unfold register_movement
  cases v.direction <;> simp

theorem register_movement_right :
    (register_movement I v).active_right
      = (decide (v.direction = Direction.Right) || I.active_right) := by
  unfold register_movement
  cases v.direction <;> simp

theorem leave_intersection_active_count :
    (leave_intersection I v).active_count
      = if I.active_count > 0 then I.active_count - 1 else I.active_count := by
  unfold leave_intersection
  cases v.direction <;> by_cases h : I.active_count > 0 <;> simp [h]

theorem leave_intersection_straight :
    (leave_intersection I v).active_straight
      = (!decide (v.direction = Direction.Straight) && I.active_straight) := by
  unfold leave_intersection
  cases v.direction <;> by_cases h : I.active_count > 0 <;> simp [h]

theorem leave_intersection_left :
    (leave_intersection I v).active_left
      = (!decide (v.direction = Direction.Left) && I.active_left) := by
  unfold leave_intersection
  cases v.direction <;> by_cases h : I.active_count > 0 <;> simp [h]

theorem leave_intersection_right :
    (leave_intersection I v).active_right
      = (!decide (v.direction = Direction.Right) && I.active_right) := by
  unfold leave_intersection
  cases v.direction <;> by_cases h : I.active_count > 0 <;> simp [h]

/-- With no wake-up supplied, `enter_intersection` returns exactly when the
first evaluation of the predicate admits the vehicle. -/
theorem enter_intersection_nil :
    enter_intersection v I [] = if admitted I v then some (register_movement I v) else none := by
  simp [enter_intersection]

end FieldLemmas

/-! ## Admission predicate by vehicle class -/

/-- C3 (normal-class admission): for a Car, Bike or Tractor one evaluation of the
wait loop admits the vehicle exactly when the light is GREEN, no preemption is
active and `canEnterNow` holds; `canEnterNow` is `active_count == 0` or
(direction Straight and `active_straight` and neither `active_left` nor
`active_right`). -/
theorem normal_admission_iff (I : Intersection) (v : Vehicle)
    (hv : v.type = VehicleType.Car ∨ v.type = VehicleType.Bike ∨ v.type = VehicleType.Tractor) :
    (admitted I v = true ↔
        (I.light = LightColor.GREEN ∧ I.emergency_preempt = false ∧ canEnterNow I v = true))
    ∧ (canEnterNow I v = true ↔
        (I.active_count = 0 ∨
          (v.direction = Direction.Straight ∧ I.active_straight = true
            ∧ I.active_left = false ∧ I.active_right = false))) := by
  refine ⟨?_, ?_⟩
  · rcases hv with h | h | h <;> simp [admitted, isEmergency, h] <;> tauto
  · simp [canEnterNow, and_assoc]

/-- Witness of C3: a Car going straight at an empty GREEN intersection. -/
theorem normal_admission_iff_witness :
    (admitted (set_light freshF10.I LightColor.GREEN)
        (mkVehicle 1 VehicleType.Car Direction.Straight) = true ↔
      ((set_light freshF10.I LightColor.GREEN).light = LightColor.GREEN
        ∧ (set_light freshF10.I LightColor.GREEN).emergency_preempt = false
        ∧ canEnterNow (set_light freshF10.I LightColor.GREEN)
            (mkVehicle 1 VehicleType.Car Direction.Straight) = true))
    ∧ (canEnterNow (set_light freshF10.I LightColor.GREEN)
          (mkVehicle 1 VehicleType.Car Direction.Straight) = true ↔
        ((set_light freshF10.I LightColor.GREEN).active_count = 0 ∨
          ((mkVehicle 1 VehicleType.Car Direction.Straight).direction = Direction.Straight
            ∧ (set_light freshF10.I LightColor.GREEN).active_straight = true
            ∧ (set_light freshF10.I LightColor.GREEN).active_left = false
            ∧ (set_light freshF10.I LightColor.GREEN).active_right = false))) :=
  normal_admission_iff (set_light freshF10.I LightColor.GREEN)
    (mkVehicle 1 VehicleType.Car Direction.Straight) (Or.inl rfl)

/-- C4 (emergency bypass): for an Ambulance or FireTruck the admission test is
`canEnterNow`, and replacing the light and the preempt flag by any other values
leaves the outcome the same. -/
theorem emergency_admission_iff (I : Intersection) (v : Vehicle)
    (hv : v.type = VehicleType.Ambulance ∨ v.type = VehicleType.FireTruck) :
    (admitted I v = true ↔ canEnterNow I v = true)
    ∧ ∀ (c : LightColor) (b : Bool),
        admitted (set_preempt_flag (set_light I c) b) v = admitted I v := by
  have he : isEmergency v = true := by
    rcases hv with h | h <;> simp [isEmergency, h]
  refine ⟨by simp [admitted, he], ?_⟩
  intro c b
  simp [admitted, he, canEnterNow, set_preempt_flag, set_light]

/-- Witness of C4: an Ambulance turning left at the freshly initialised (RED) F10. -/
theorem emergency_admission_iff_witness :
    (admitted freshF10.I (mkVehicle 2 VehicleType.Ambulance Direction.Left) = true ↔
      canEnterNow freshF10.I (mkVehicle 2 VehicleType.Ambulance Direction.Left) = true)
    ∧ ∀ (c : LightColor) (b : Bool),
        admitted (set_preempt_flag (set_light freshF10.I c) b)
            (mkVehicle 2 VehicleType.Ambulance Direction.Left)
          = admitted freshF10.I (mkVehicle 2 VehicleType.Ambulance Direction.Left) :=
  emergency_admission_iff freshF10.I (mkVehicle 2 VehicleType.Ambulance Direction.Left)
    (Or.inl rfl)

/-- C5 (bus admission): a Bus is admitted exactly when no preemption is active
and `canEnterNow` holds; the light colour never changes the outcome. -/
theorem bus_admission_iff (I : Intersection) (v : Vehicle)
    (hv : v.type = VehicleType.Bus) :
    (admitted I v = true ↔ (I.emergency_preempt = false ∧ canEnterNow I v = true))
    ∧ ∀ c : LightColor, admitted (set_light I c) v = admitted I v := by
  have he : isEmergency v = false := by simp [isEmergency, hv]
  refine ⟨?_, ?_⟩
  · simp [admitted, he, hv]
    tauto
  · intro c
    simp only [admitted, he, hv, canEnterNow, set_light]
    cases I.emergency_preempt <;> cases I.light <;> cases c <;> simp

/-- Witness of C5: a Bus turning right at the freshly initialised (RED) F10. -/
theorem bus_admission_iff_witness :
    (admitted freshF10.I (mkVehicle 3 VehicleType.Bus Direction.Right) = true ↔
      (freshF10.I.emergency_preempt = false
        ∧ canEnterNow freshF10.I (mkVehicle 3 VehicleType.Bus Direction.Right) = true))
    ∧ ∀ c : LightColor,
        admitted (set_light freshF10.I c) (mkVehicle 3 VehicleType.Bus Direction.Right)
          = admitted freshF10.I (mkVehicle 3 VehicleType.Bus Direction.Right) :=
  bus_admission_iff freshF10.I (mkVehicle 3 VehicleType.Bus Direction.Right) rfl

/-! ## The invariant of the entry/exit protocol -/

theorem admitted_canEnterNow {I : Intersection} {v : Vehicle}
    (h : admitted I v = true) : canEnterNow I v = true := by
  unfold admitted at h
  by_cases he : isEmergency v = true
  · simpa [he] using h
  · simp only [he] at h
    simp at h
    tauto

theorem canEnterNow_iff (I : Intersection) (v : Vehicle) :
    canEnterNow I v = true ↔
      (I.active_count = 0 ∨
        (v.direction = Direction.Straight ∧ I.active_straight = true
          ∧ I.active_left = false ∧ I.active_right = false)) := by
  simp [canEnterNow, and_assoc]

theorem inv_init (I0 : Intersection) (id : IntersectionId) : Inv (initCrossing I0 id) := by
  constructor <;> simp [initCrossing, init_intersection]

theorem inv_light {s : Crossing} (h : Inv s) (c : LightColor) :
    Inv ⟨set_light s.I c, s.inside⟩ :=
  ⟨h.count, h.left_in, h.right_in, h.left_flag, h.right_flag, h.straight_flag⟩

theorem inv_preempt {s : Crossing} (h : Inv s) (b : Bool) :
    Inv ⟨set_preempt_flag s.I b, s.inside⟩ :=
  ⟨h.count, h.left_in, h.right_in, h.left_flag, h.right_flag, h.straight_flag⟩

theorem inv_enter {s : Crossing} (h : Inv s) {v : Vehicle} (ha : admitted s.I v = true) :
    Inv ⟨register_movement s.I v, v :: s.inside⟩ := by
  rcases (canEnterNow_iff s.I v).1 (admitted_canEnterNow ha) with h0 | ⟨hd, _, hl, hr⟩
  · -- the intersection is empty
    have hnil : s.inside = [] := by
      have := h.count
      rw [h0] at this
      exact List.length_eq_zero.1 (by exact_mod_cast this.symm)
    have hl : s.I.active_left = false := by
      cases hf : s.I.active_left with
      | false => rfl
      | true => obtain ⟨w, hw, _⟩ := h.left_flag hf; simp [hnil] at hw
    have hr : s.I.active_right = false := by
      cases hf : s.I.active_right with
      | false => rfl
      | true => obtain ⟨w, hw, _⟩ := h.right_flag hf; simp [hnil] at hw
    have hs : s.I.active_straight = false := by
      cases hf : s.I.active_straight with
      | false => rfl
      | true => obtain ⟨w, hw, _⟩ := h.straight_flag hf; simp [hnil] at hw
    constructor
    · simp [h0, hnil]
    · intro w hw hdw
      simp [hnil] at hw
      subst hw
      simp [register_movement_left, hdw, hnil]
    · intro w hw hdw
      simp [hnil] at hw
      subst hw
      simp [register_movement_right, hdw, hnil]
    · intro hf
      simp [register_movement_left, hl] at hf
      exact ⟨v, by simp, hf⟩
    · intro hf
      simp [register_movement_right, hr] at hf
      exact ⟨v, by simp, hf⟩
    · intro hf
      simp [register_movement_straight, hs] at hf
      exact ⟨v, by simp, hf⟩
  · -- a straight mover joins straight movers
    constructor
    · simp [h.count]
    · intro w hw hdw
      rcases List.mem_cons.1 hw with rfl | hw
      · rw [hd] at hdw; cases hdw
      · have := (h.left_in w hw hdw).1
        rw [hl] at this; cases this
    · intro w hw hdw
      rcases List.mem_cons.1 hw with rfl | hw
      · rw [hd] at hdw; cases hdw
      · have := (h.right_in w hw hdw).1
        rw [hr] at this; cases this
    · intro hf
      simp [register_movement_left, hl, hd] at hf
    · intro hf
      simp [register_movement_right, hr, hd] at hf
    · intro _
      exact ⟨v, by simp, hd⟩

theorem inv_leave {s : Crossing} (h : Inv s) {v : Vehicle} (hv : v ∈ s.inside) :
    Inv ⟨leave_intersection s.I v, s.inside.erase v⟩ := by
  have hpos : 0 < s.inside.length := List.length_pos_of_mem hv
  have hsolo : ∀ w, s.inside = [w] → v = w := by
    intro w hw
    rw [hw] at hv
    simpa using hv
  constructor
  · have hc : s.I.active_count > 0 := by rw [h.count]; exact_mod_cast hpos
    simp only [leave_intersection_active_count, hc, if_true, h.count,
      List.length_erase_of_mem hv]
    omega
  · intro w hw hdw
    have hw1 : w ∈ s.inside := List.mem_of_mem_erase hw
    have hone := (h.left_in w hw1 hdw).2
    have := hsolo w hone
    subst this
    simp [hone] at hw
  · intro w hw hdw
    have hw1 : w ∈ s.inside := List.mem_of_mem_erase hw
    have hone := (h.right_in w hw1 hdw).2
    have := hsolo w hone
    subst this
    simp [hone] at hw
  · intro hf
    simp [leave_intersection_left] at hf
    obtain ⟨w, hw, hdw⟩ := h.left_flag hf.2
    have := hsolo w (h.left_in w hw hdw).2
    subst this
    exact absurd hdw hf.1
  · intro hf
    simp [leave_intersection_right] at hf
    obtain ⟨w, hw, hdw⟩ := h.right_flag hf.2
    have := hsolo w (h.right_in w hw hdw).2
    subst this
    exact absurd hdw hf.1
  · intro hf
    simp [leave_intersection_straight] at hf
    obtain ⟨w, hw, hdw⟩ := h.straight_flag hf.2
    have hne : w ≠ v := by
      intro e
      subst e
      exact hf.1 hdw
    exact ⟨w, (List.mem_erase_of_ne hne).2 hw, hdw⟩

theorem inv_step {s t : Crossing} (h : Inv s) {e : Event} (hst : step s e = some t) :
    Inv t := by
  cases e with
  | enter v =>
    by_cases ha : admitted s.I v = true
    · simp [step, ha] at hst
      subst hst
      exact inv_enter h ha
    · simp [step, ha] at hst
  | leave v =>
    by_cases hv : v ∈ s.inside
    · simp [step, hv] at hst
      subst hst
      exact inv_leave h hv
    · simp [step, hv] at hst
  | light c =>
    simp [step] at hst
    subst hst
    exact inv_light h c
  | preempt b =>
    simp [step] at hst
    subst hst
    exact inv_preempt h b

theorem inv_run {es : List Event} : ∀ {s t : Crossing}, Inv s → run s es = some t → Inv t := by
  induction es with
  | nil =>
    intro s t h hr
    simp [run] at hr
    subst hr
    exact h
  | cons e es ih =>
    intro s t h hr
    simp only [run] at hr
    cases hs : step s e with
    | none => simp [hs] at hr
    | some u =>
      simp [hs] at hr
      exact ih (inv_step h hs) hr

theorem reachable_inv {s : Crossing} (h : Reachable s) : Inv s := by
  obtain ⟨I0, id, es, hr⟩ := h
  exact inv_run (inv_init I0 id) hr

/-! ## Properties of the reachable states -/

theorem reachable_freshF10 : Reachable freshF10 :=
  ⟨rawIntersection, IntersectionId.F10, [], rfl⟩

theorem run_pairThenOneLeaves : run freshF10 pairThenOneLeaves = some afterOneLeft := by
  decide

theorem reachable_afterOneLeft : Reachable afterOneLeft :=
  ⟨rawIntersection, IntersectionId.F10, pairThenOneLeaves, run_pairThenOneLeaves⟩

/-- C1 (mutual exclusion of turns): in every state reachable from
`init_intersection` by admitted enters, leaves of vehicles inside, light changes
and preempt toggles, if `active_left` or `active_right` is true then
`active_count == 1`. -/
theorem turn_mutual_exclusion (s : Crossing) (hr : Reachable s)
    (hf : s.I.active_left = true ∨ s.I.active_right = true) :
    s.I.active_count = 1 := by
  have h := reachable_inv hr
  rcases hf with hf | hf
  · obtain ⟨w, hw, hdw⟩ := h.left_flag hf
    rw [h.count, (h.left_in w hw hdw).2]
    rfl
  · obtain ⟨w, hw, hdw⟩ := h.right_flag hf
    rw [h.count, (h.right_in w hw hdw).2]
    rfl

/-- Witness of C1: a fire truck turning left is inside the fresh F10. -/
theorem turn_mutual_exclusion_witness :
    Reachable leftTurnInside
      ∧ (leftTurnInside.I.active_left = true ∨ leftTurnInside.I.active_right = true)
      ∧ leftTurnInside.I.active_count = 1 :=
  ⟨⟨rawIntersection, IntersectionId.F10, [Event.enter truckL], by decide⟩,
    Or.inl (by decide),
    turn_mutual_exclusion leftTurnInside
      ⟨rawIntersection, IntersectionId.F10, [Event.enter truckL], by decide⟩
      (Or.inl (by decide))⟩

theorem reachable_pairInside : Reachable pairInside :=
  ⟨rawIntersection, IntersectionId.F10,
    [Event.light LightColor.GREEN, Event.enter carA, Event.enter carB], by decide⟩

theorem reachable_greenF10 : Reachable greenF10 :=
  ⟨rawIntersection, IntersectionId.F10, [Event.light LightColor.GREEN], by decide⟩

/-- C2 (only straight+straight concurrency): in every reachable state with two or
more vehicles inside, every vehicle inside has direction Straight; equivalently a
vehicle turning left or right that is inside is the only vehicle inside. -/
theorem only_straight_concurrency (s : Crossing) (hr : Reachable s) :
    (2 ≤ s.inside.length → ∀ v ∈ s.inside, v.direction = Direction.Straight)
    ∧ (∀ v ∈ s.inside, v.direction ≠ Direction.Straight → s.inside = [v]) := by
  have h := reachable_inv hr
  have hsolo : ∀ v ∈ s.inside, v.direction ≠ Direction.Straight → s.inside = [v] := by
    intro v hv hd
    cases hdir : v.direction with
    | Straight => exact absurd hdir hd
    | Left => exact (h.left_in v hv hdir).2
    | Right => exact (h.right_in v hv hdir).2
  refine ⟨?_, hsolo⟩
  intro h2 v hv
  by_contra hd
  have := hsolo v hv hd
  rw [this] at h2
  simp at h2

/-- Witness of C2: two cars going straight are inside F10 together. -/
theorem only_straight_concurrency_witness :
    Reachable pairInside
      ∧ (2 ≤ pairInside.inside.length →
          ∀ v ∈ pairInside.inside, v.direction = Direction.Straight)
      ∧ (∀ v ∈ pairInside.inside, v.direction ≠ Direction.Straight →
          pairInside.inside = [v]) :=
  ⟨reachable_pairInside, only_straight_concurrency pairInside reachable_pairInside⟩

/-- C6 (joining an all-straight group), evaluated on the code: after two cars going
straight entered and one of them left, the state is reachable, the only vehicle
inside goes straight, and a newly arriving vehicle going straight fails
`canEnterNow`; an ambulance, which needs nothing else, is not admitted. -/
theorem straight_join_refused_after_leave :
    Reachable afterOneLeft
      ∧ afterOneLeft.inside ≠ []
      ∧ (∀ v ∈ afterOneLeft.inside, v.direction = Direction.Straight)
      ∧ ambulanceC.direction = Direction.Straight
      ∧ canEnterNow afterOneLeft.I ambulanceC = false
      ∧ enter_intersection ambulanceC afterOneLeft.I [] = none :=
  ⟨reachable_afterOneLeft, by decide, by decide, by decide, by decide, by decide⟩

/-- C7 (movement flags record the kinds in progress), evaluated on the code: after
two cars going straight entered and one of them left, a vehicle going straight is
inside while `active_straight` is false. -/
theorem straight_flag_false_with_straight_inside :
    run freshF10 pairThenOneLeaves = some afterOneLeft
      ∧ (∃ v ∈ afterOneLeft.inside, v.direction = Direction.Straight)
      ∧ afterOneLeft.I.active_straight = false :=
  ⟨run_pairThenOneLeaves, ⟨carB, by decide, by decide⟩, by decide⟩

/-- The part of the flag/occupancy correspondence that the code keeps: the left
and right flags are exact, and a set straight flag has a straight mover inside. -/
theorem flags_sound (s : Crossing) (hr : Reachable s) :
    (s.I.active_left = true ↔ ∃ v ∈ s.inside, v.direction = Direction.Left)
    ∧ (s.I.active_right = true ↔ ∃ v ∈ s.inside, v.direction = Direction.Right)
    ∧ (s.I.active_straight = true → ∃ v ∈ s.inside, v.direction = Direction.Straight) := by
  have h := reachable_inv hr
  refine ⟨⟨h.left_flag, ?_⟩, ⟨h.right_flag, ?_⟩, h.straight_flag⟩
  · rintro ⟨v, hv, hd⟩
    exact (h.left_in v hv hd).1
  · rintro ⟨v, hv, hd⟩
    exact (h.right_in v hv hd).1

/-- C8 (occupancy count): in every reachable state, leaves being made only by
vehicles that are inside, `active_count` is the number of vehicles admitted and
not yet gone. -/
theorem occupancy_count (s : Crossing) (hr : Reachable s) :
    s.I.active_count = s.inside.length :=
  (reachable_inv hr).count

/-- Witness of C8: after two enters and one leave one vehicle is inside. -/
theorem occupancy_count_witness :
    Reachable afterOneLeft ∧ afterOneLeft.I.active_count = afterOneLeft.inside.length :=
  ⟨reachable_afterOneLeft, occupancy_count afterOneLeft reachable_afterOneLeft⟩

/-! ## Straight movers entering one after another -/

theorem admitted_of_green {I : Intersection} {v : Vehicle}
    (hg : I.light = LightColor.GREEN) (hp : I.emergency_preempt = false)
    (hc : canEnterNow I v = true) : admitted I v = true := by
  unfold admitted
  by_cases he : isEmergency v = true <;> simp [he, hg, hp, hc]

/-- Straight movers arriving at a GREEN intersection without preemption whose left
and right flags are clear, and which is empty or has its straight flag set, all
enter at their first evaluation of the predicate. -/
theorem enter_all_straight (vs : List Vehicle) :
    ∀ I : Intersection,
      (∀ v ∈ vs, v.direction = Direction.Straight) →
      I.light = LightColor.GREEN → I.emergency_preempt = false →
      I.active_left = false → I.active_right = false →
      (I.active_count = 0 ∨ I.active_straight = true) →
      ∃ J, enter_all I vs = some J
        ∧ J.active_count = I.active_count + vs.length
        ∧ (vs ≠ [] → J.active_straight = true) := by
  induction vs with
  | nil =>
    intro I _ _ _ _ _ _
    exact ⟨I, rfl, by simp, by simp⟩
  | cons v vs ih =>
    intro I hs hg hp hl hr h0
    have hd : v.direction = Direction.Straight := hs v (by simp)
    have hc : canEnterNow I v = true := by
      rw [canEnterNow_iff]
      rcases h0 with h0 | h0
      · exact Or.inl h0
      · exact Or.inr ⟨hd, h0, hl, hr⟩
    have ha : admitted I v = true := admitted_of_green hg hp hc
    have hstr : (register_movement I v).active_straight = true := by
      simp [register_movement_straight, hd]
    obtain ⟨J, hJ, hcount, hrest⟩ := ih (register_movement I v)
      (fun w hw => hs w (List.mem_cons_of_mem _ hw))
      (by simp [hg]) (by simp [hp])
      (by simp [register_movement_left, hl, hd])
      (by simp [register_movement_right, hr, hd])
      (Or.inr hstr)
    refine ⟨J, ?_, ?_, ?_⟩
    · simp [enter_all, enter_intersection, ha, hJ]
    · rw [hcount, register_movement_active_count]
      simp only [List.length_cons]
      push_cast
      ring
    · intro _
      cases vs with
      | nil =>
        simp [enter_all] at hJ
        rw [← hJ]
        exact hstr
      | cons w ws => exact hrest (by simp)

/-- C9 (straight concurrency): for every n ≥ 2, starting from a reachable state
with nobody inside, light GREEN and no preemption, n vehicles of any class going
straight that call `enter_intersection` one after another, nobody leaving in
between, are each admitted at the first evaluation of the predicate; the
resulting state has `active_count == n` and `active_straight == true`. -/
theorem straight_concurrency (s : Crossing) (hr : Reachable s) (hempty : s.inside = [])
    (hg : s.I.light = LightColor.GREEN) (hp : s.I.emergency_preempt = false)
    (n : Nat) (hn : 2 ≤ n) (vs : List Vehicle) (hlen : vs.length = n)
    (hs : ∀ v ∈ vs, v.direction = Direction.Straight) :
    ∃ J, enter_all s.I vs = some J
      ∧ J.active_count = n ∧ J.active_straight = true := by
  have h := reachable_inv hr
  have h0 : s.I.active_count = 0 := by rw [h.count, hempty]; rfl
  have hl : s.I.active_left = false := by
    cases hf : s.I.active_left with
    | false => rfl
    | true => obtain ⟨w, hw, _⟩ := h.left_flag hf; simp [hempty] at hw
  have hrt : s.I.active_right = false := by
    cases hf : s.I.active_right with
    | false => rfl
    | true => obtain ⟨w, hw, _⟩ := h.right_flag hf; simp [hempty] at hw
  obtain ⟨J, hJ, hcount, hstr⟩ := enter_all_straight vs s.I hs hg hp hl hrt (Or.inl h0)
  refine ⟨J, hJ, ?_, ?_⟩
  · rw [hcount, h0, hlen]; simp
  · apply hstr
    intro hnil
    rw [hnil] at hlen
    simp at hlen
    omega

/-- Witness of C9: two cars and an ambulance, all going straight, enter the
GREEN F10 one after another. -/
theorem straight_concurrency_witness :
    Reachable greenF10 ∧ greenF10.inside = []
      ∧ greenF10.I.light = LightColor.GREEN ∧ greenF10.I.emergency_preempt = false
      ∧ 2 ≤ 3 ∧ [carA, carB, ambulanceC].length = 3
      ∧ (∀ v ∈ [carA, carB, ambulanceC], v.direction = Direction.Straight)
      ∧ ∃ J, enter_all greenF10.I [carA, carB, ambulanceC] = some J
          ∧ J.active_count = (3 : Nat) ∧ J.active_straight = true :=
  ⟨reachable_greenF10, rfl, by decide, by decide, by decide, rfl, by decide,
    straight_concurrency greenF10 reachable_greenF10 rfl (by decide) (by decide)
      3 (by decide) [carA, carB, ambulanceC] rfl (by decide)⟩

/-! ## Effect of a successful entry -/

/-- C10 (effect of a successful `enter_intersection`): in every reachable state in
which the vehicle is admitted, `enter_intersection` returns a state with the flag
of the vehicle's direction true, `active_count` larger by exactly 1 and
`busy == true`, while `light`, `emergency_preempt` and the two other movement
flags are unchanged. -/
theorem enter_effect (s : Crossing) (hr : Reachable s) (v : Vehicle)
    (ha : admitted s.I v = true) :
    ∃ J, enter_intersection v s.I [] = some J
      ∧ J.active_count = s.I.active_count + 1
      ∧ J.busy = true
      ∧ J.light = s.I.light
      ∧ J.emergency_preempt = s.I.emergency_preempt
      ∧ (v.direction = Direction.Straight →
          J.active_straight = true ∧ J.active_left = s.I.active_left
            ∧ J.active_right = s.I.active_right)
      ∧ (v.direction = Direction.Left →
          J.active_left = true ∧ J.active_straight = s.I.active_straight
            ∧ J.active_right = s.I.active_right)
      ∧ (v.direction = Direction.Right →
          J.active_right = true ∧ J.active_straight = s.I.active_straight
            ∧ J.active_left = s.I.active_left) := by
  have h0 : 0 ≤ s.I.active_count := by
    rw [(reachable_inv hr).count]
    exact Int.natCast_nonneg _
  refine ⟨register_movement s.I v, by simp [enter_intersection, ha], by simp, ?_, by simp,
    by simp, ?_, ?_, ?_⟩
  · simp only [register_movement_busy, decide_eq_true_eq]
    omega
  · intro hd
    simp [register_movement_straight, register_movement_left, register_movement_right, hd]
  · intro hd
    simp [register_movement_straight, register_movement_left, register_movement_right, hd]
  · intro hd
    simp [register_movement_straight, register_movement_left, register_movement_right, hd]

/-- Witness of C10: a third vehicle going straight, an ambulance, joins the two
cars that are crossing F10. -/
theorem enter_effect_witness :
    Reachable pairInside ∧ admitted pairInside.I ambulanceC = true
      ∧ ∃ J, enter_intersection ambulanceC pairInside.I [] = some J
        ∧ J.active_count = pairInside.I.active_count + 1
        ∧ J.busy = true
        ∧ J.light = pairInside.I.light
        ∧ J.emergency_preempt = pairInside.I.emergency_preempt
        ∧ (ambulanceC.direction = Direction.Straight →
            J.active_straight = true ∧ J.active_left = pairInside.I.active_left
              ∧ J.active_right = pairInside.I.active_right)
        ∧ (ambulanceC.direction = Direction.Left →
            J.active_left = true ∧ J.active_straight = pairInside.I.active_straight
              ∧ J.active_right = pairInside.I.active_right)
        ∧ (ambulanceC.direction = Direction.Right →
            J.active_right = true ∧ J.active_straight = pairInside.I.active_straight
              ∧ J.active_left = pairInside.I.active_left) :=
  ⟨reachable_pairInside, by decide,
    enter_effect pairInside reachable_pairInside ambulanceC (by decide)⟩

/-! ## Effect of leaving -/

/-- C11 (effect of `leave_intersection`): for every state with `active_count > 0`
and every vehicle, the resulting state has the flag of the direction of the
vehicle false, `active_count` smaller by exactly 1 and `busy` equal to
`active_count > 0` of the resulting state, while `light`, `emergency_preempt`
and the two other movement flags are unchanged. -/
theorem leave_effect (I : Intersection) (v : Vehicle) (h : I.active_count > 0) :
    (leave_intersection I v).active_count = I.active_count - 1
      ∧ (leave_intersection I v).busy = decide ((leave_intersection I v).active_count > 0)
      ∧ (leave_intersection I v).light = I.light
      ∧ (leave_intersection I v).emergency_preempt = I.emergency_preempt
      ∧ (v.direction = Direction.Straight →
          (leave_intersection I v).active_straight = false
            ∧ (leave_intersection I v).active_left = I.active_left
            ∧ (leave_intersection I v).active_right = I.active_right)
      ∧ (v.direction = Direction.Left →
          (leave_intersection I v).active_left = false
            ∧ (leave_intersection I v).active_straight = I.active_straight
            ∧ (leave_intersection I v).active_right = I.active_right)
      ∧ (v.direction = Direction.Right →
          (leave_intersection I v).active_right = false
            ∧ (leave_intersection I v).active_straight = I.active_straight
            ∧ (leave_intersection I v).active_left = I.active_left) := by
  refine ⟨by simp [leave_intersection_active_count, h], ?_, ?_, ?_, ?_, ?_, ?_⟩
  · unfold leave_intersection
    cases v.direction <;> simp [h]
  · unfold leave_intersection
    cases v.direction <;> simp [h]
  · unfold leave_intersection
    cases v.direction <;> simp [h]
  · intro hd
    simp [leave_intersection_straight, leave_intersection_left, leave_intersection_right, hd]
  · intro hd
    simp [leave_intersection_straight, leave_intersection_left, leave_intersection_right, hd]
  · intro hd
    simp [leave_intersection_straight, leave_intersection_left, leave_intersection_right, hd]

/-- Witness of C11: the first of two cars going straight leaves. -/
theorem leave_effect_witness :
    pairInside.I.active_count > 0
      ∧ (leave_intersection pairInside.I carA).active_count = pairInside.I.active_count - 1
      ∧ (leave_intersection pairInside.I carA).busy
          = decide ((leave_intersection pairInside.I carA).active_count > 0)
      ∧ (leave_intersection pairInside.I carA).light = pairInside.I.light
      ∧ (leave_intersection pairInside.I carA).emergency_preempt
          = pairInside.I.emergency_preempt
      ∧ (carA.direction = Direction.Straight →
          (leave_intersection pairInside.I carA).active_straight = false
            ∧ (leave_intersection pairInside.I carA).active_left = pairInside.I.active_left
            ∧ (leave_intersection pairInside.I carA).active_right = pairInside.I.active_right)
      ∧ (carA.direction = Direction.Left →
          (leave_intersection pairInside.I carA).active_left = false
            ∧ (leave_intersection pairInside.I carA).active_straight
                = pairInside.I.active_straight
            ∧ (leave_intersection pairInside.I carA).active_right = pairInside.I.active_right)
      ∧ (carA.direction = Direction.Right →
          (leave_intersection pairInside.I carA).active_right = false
            ∧ (leave_intersection pairInside.I carA).active_straight
                = pairInside.I.active_straight
            ∧ (leave_intersection pairInside.I carA).active_left = pairInside.I.active_left) :=
  ⟨by decide, leave_effect pairInside.I carA (by decide)⟩

/-! ## Emergency preemption on the two intersections -/

theorem otherId_ne (id : IntersectionId) : otherId id ≠ id := by
  cases id <;> simp [otherId]

theorem intersection_setIntersection_same (w : World) (id : IntersectionId) (I : Intersection) :
    (w.setIntersection id I).intersection id = I := by
  cases id <;> simp [World.setIntersection, World.intersection]

theorem intersection_setIntersection_ne (w : World) {id jd : IntersectionId} (h : jd ≠ id)
    (I : Intersection) : (w.setIntersection id I).intersection jd = w.intersection jd := by
  cases id <;> cases jd <;> simp_all [World.setIntersection, World.intersection]

/-- C12 (preemption scoping): `set_emergency_preempt(id, b)` makes
`is_emergency_preempt(id) == b`, leaves the other intersection unchanged in every
field, and leaves `light`, `active_count` and the movement flags of intersection
`id` unchanged; so the admission test of any vehicle at the other intersection,
and of any emergency vehicle at intersection `id`, has the same outcome before
and after. -/
theorem preempt_scoping (w : World) (id : IntersectionId) (b : Bool) :
    is_emergency_preempt (set_emergency_preempt w id b) id = b
      ∧ (set_emergency_preempt w id b).intersection (otherId id) = w.intersection (otherId id)
      ∧ ((set_emergency_preempt w id b).intersection id).light = (w.intersection id).light
      ∧ ((set_emergency_preempt w id b).intersection id).active_count
          = (w.intersection id).active_count
      ∧ ((set_emergency_preempt w id b).intersection id).active_straight
          = (w.intersection id).active_straight
      ∧ ((set_emergency_preempt w id b).intersection id).active_left
          = (w.intersection id).active_left
      ∧ ((set_emergency_preempt w id b).intersection id).active_right
          = (w.intersection id).active_right
      ∧ (∀ v : Vehicle,
          admitted ((set_emergency_preempt w id b).intersection (otherId id)) v
            = admitted (w.intersection (otherId id)) v)
      ∧ (∀ v : Vehicle, isEmergency v = true →
          admitted ((set_emergency_preempt w id b).intersection id) v
            = admitted (w.intersection id) v) := by
  have hsame : (set_emergency_preempt w id b).intersection id
      = set_preempt_flag (w.intersection id) b :=
    intersection_setIntersection_same w id _
  have hother : (set_emergency_preempt w id b).intersection (otherId id)
      = w.intersection (otherId id) :=
    intersection_setIntersection_ne w (otherId_ne id) _
  refine ⟨?_, hother, ?_, ?_, ?_, ?_, ?_, ?_, ?_⟩
  · simp [is_emergency_preempt, hsame, set_preempt_flag]
  · simp [hsame, set_preempt_flag]
  · simp [hsame, set_preempt_flag]
  · simp [hsame, set_preempt_flag]
  · simp [hsame, set_preempt_flag]
  · simp [hsame, set_preempt_flag]
  · intro v
    rw [hother]
  · intro v hv
    simp [hsame, admitted, hv, canEnterNow, set_preempt_flag]

/-- C13 (destination-scoped notification): `notify_emergency_from_to(from, to)`
with `from != to` sets `emergency_preempt` of intersection `to` and leaves
`emergency_preempt` of intersection `from` unchanged; with `from == to` it
changes nothing at all, neither an intersection nor a pipe. -/
theorem notify_scoping (w : World) (from_id to_id : IntersectionId) :
    (from_id ≠ to_id →
        is_emergency_preempt (notify_emergency_from_to w from_id to_id) to_id = true
          ∧ is_emergency_preempt (notify_emergency_from_to w from_id to_id) from_id
              = is_emergency_preempt w from_id)
      ∧ (from_id = to_id → notify_emergency_from_to w from_id to_id = w) := by
  constructor
  · intro h
    cases from_id <;> cases to_id <;>
      simp_all [notify_emergency_from_to, is_emergency_preempt, set_emergency_preempt,
        World.setIntersection, World.intersection, set_preempt_flag]
  · intro h
    simp [notify_emergency_from_to, h]

/-! ## Parking: single calls -/

theorem sem_trywait_eq_some {s t : Nat} : sem_trywait s = some t ↔ 0 < s ∧ t + 1 = s := by
  unfold sem_trywait
  by_cases h : s > 0
  · simp only [h, if_true, Option.some.injEq, true_and]
    omega
  · simp [h]

theorem sem_trywait_eq_none {s : Nat} : sem_trywait s = none ↔ s = 0 := by
  unfold sem_trywait
  by_cases h : s > 0 <;> simp [h] <;> omega

theorem wait_available_spots_of_free (lot : ParkingLot) (h : 0 < lot.available_spots)
    (wakes : List ParkingLot) :
    wait_available_spots lot wakes
      = some { lot with available_spots := lot.available_spots - 1 } := by
  have ht : take_available_spot lot
      = some { lot with available_spots := lot.available_spots - 1 } := by
    simp [take_available_spot, sem_trywait, h]
  cases wakes with
  | nil => simp [wait_available_spots, ht]
  | cons next rest => simp [wait_available_spots, ht]

/-- C18 (fail-fast under preemption): when `emergency_preempt` of the intersection
that `reserve_parking_spot` associates with the lot is true at the call, the call
returns false without blocking, whatever the numbers of free spots and free
waiting slots, and the lot is unchanged. -/
theorem reserve_fails_fast_under_preempt (w : World) (lot : ParkingLot) (v : Vehicle)
    (wakes : List ParkingLot) (hp : is_emergency_preempt w (originId lot) = true) :
    reserve_parking_spot w lot v wakes = some (false, lot) := by
  simp [reserve_parking_spot, hp]

/-- Witness of C18: a car asks for a spot at the F10 lot while F10 is preempted. -/
theorem reserve_fails_fast_under_preempt_witness :
    is_emergency_preempt worldPreemptF10 (originId worldPreemptF10.F10_parking) = true
      ∧ reserve_parking_spot worldPreemptF10 worldPreemptF10.F10_parking carA []
          = some (false, worldPreemptF10.F10_parking) :=
  ⟨by decide,
    reserve_fails_fast_under_preempt worldPreemptF10 worldPreemptF10.F10_parking carA []
      (by decide)⟩

/-- C20 (reserve/release round trip): with no preemption, a free waiting slot and
a free spot, `reserve_parking_spot` returns true without blocking, with one free
spot less, `current_spots` one more and the same number of free waiting slots;
`use_and_release_parking` after it restores the lot. -/
theorem reserve_release_round_trip (w : World) (lot : ParkingLot) (v : Vehicle)
    (wakes : List ParkingLot)
    (hp : is_emergency_preempt w (originId lot) = false)
    (hq : 0 < lot.waiting_slots) (hs : 0 < lot.available_spots) :
    ∃ got, reserve_parking_spot w lot v wakes = some (true, got)
      ∧ got.available_spots + 1 = lot.available_spots
      ∧ got.current_spots = lot.current_spots + 1
      ∧ got.waiting_slots = lot.waiting_slots
      ∧ (use_and_release_parking got v).available_spots = lot.available_spots
      ∧ (use_and_release_parking got v).waiting_slots = lot.waiting_slots
      ∧ (use_and_release_parking got v).current_spots = lot.current_spots
      ∧ use_and_release_parking got v = lot := by
  obtain ⟨name, ms, mq, a, q, c⟩ := lot
  simp only at hq hs
  have hw := wait_available_spots_of_free ⟨name, ms, mq, a, q - 1, c⟩ hs wakes
  refine ⟨⟨name, ms, mq, a - 1, q - 1 + 1, c + 1⟩, ?_, ?_, ?_, ?_, ?_, ?_, ?_, ?_⟩
  · simp [reserve_parking_spot, hp, trywait_waiting_slots, sem_trywait, hq, hw,
      inc_current_spots, post_waiting_slots, sem_post]
  · simp only
    omega
  · rfl
  · simp only
    omega
  · simp only [use_and_release_parking, post_available_spots, dec_current_spots, sem_post]
    omega
  · simp only [use_and_release_parking, post_available_spots, dec_current_spots]
    omega
  · simp only [use_and_release_parking, post_available_spots, dec_current_spots]
    omega
  · simp only [use_and_release_parking, post_available_spots, dec_current_spots, sem_post,
      ParkingLot.mk.injEq, true_and]
    omega

/-- Witness of C20: a car reserves at the F10 lot of the initial globals. -/
theorem reserve_release_round_trip_witness :
    is_emergency_preempt world0 (originId world0.F10_parking) = false
      ∧ 0 < world0.F10_parking.waiting_slots ∧ 0 < world0.F10_parking.available_spots
      ∧ ∃ got, reserve_parking_spot world0 world0.F10_parking carA [] = some (true, got)
        ∧ got.available_spots + 1 = world0.F10_parking.available_spots
        ∧ got.current_spots = world0.F10_parking.current_spots + 1
        ∧ got.waiting_slots = world0.F10_parking.waiting_slots
        ∧ (use_and_release_parking got carA).available_spots
            = world0.F10_parking.available_spots
        ∧ (use_and_release_parking got carA).waiting_slots = world0.F10_parking.waiting_slots
        ∧ (use_and_release_parking got carA).current_spots = world0.F10_parking.current_spots
        ∧ use_and_release_parking got carA = world0.F10_parking :=
  ⟨by decide, by decide, by decide,
    reserve_release_round_trip world0 world0.F10_parking carA [] (by decide) (by decide)
      (by decide)⟩

/-! ## Parking: the invariant over all interleavings -/

theorem lotInv_init (lot0 : ParkingLot) (name : String) (spots queueSize : Int) :
    LotInv spots queueSize (initLot lot0 name spots queueSize) := by
  constructor <;> simp [initLot, init_parking_lot]

theorem lotInv_step {spots queueSize : Int} {s t : LotState} (h : LotInv spots queueSize s)
    {e : LotEvent} (hst : lotStep s e = some t) : LotInv spots queueSize t := by
  obtain ⟨h1, h2, h3, h4, h5⟩ := h
  cases e with
  | request preempt =>
    simp only [lotStep] at hst
    by_cases hp : preempt = true
    · simp [hp] at hst
      subst hst
      exact ⟨h1, h2, h3, h4, h5⟩
    · simp only [hp] at hst
      cases ht : sem_trywait s.lot.waiting_slots with
      | none =>
        simp [trywait_waiting_slots, ht] at hst
        subst hst
        exact ⟨h1, h2, h3, h4, h5⟩
      | some q =>
        simp [trywait_waiting_slots, ht] at hst
        subst hst
        have := sem_trywait_eq_some.1 ht
        constructor <;> simp only <;> first | assumption | omega
  | take_spot =>
    simp only [lotStep] at hst
    by_cases hq : s.queued > 0
    · cases ht : sem_trywait s.lot.available_spots with
      | none => simp [hq, take_available_spot, ht] at hst
      | some a =>
        simp [hq, take_available_spot, ht] at hst
        subst hst
        have := sem_trywait_eq_some.1 ht
        constructor <;> simp only <;> first | assumption | omega
    · simp [hq] at hst
  | leave_queue =>
    simp only [lotStep] at hst
    by_cases hg : s.granted > 0
    · simp [hg] at hst
      subst hst
      constructor <;> simp only [post_waiting_slots, sem_post] <;> first | assumption | omega
    · simp [hg] at hst
  | count_in =>
    simp only [lotStep] at hst
    by_cases hg : s.posted > 0
    · simp [hg] at hst
      subst hst
      constructor <;> simp only [inc_current_spots] <;> first | assumption | omega
    · simp [hg] at hst
  | count_out =>
    simp only [lotStep] at hst
    by_cases hg : s.parked > 0
    · simp [hg] at hst
      subst hst
      constructor <;> simp only [dec_current_spots] <;> first | assumption | omega
    · simp [hg] at hst
  | free_spot =>
    simp only [lotStep] at hst
    by_cases hg : s.leaving > 0
    · simp [hg] at hst
      subst hst
      constructor <;> simp only [post_available_spots, sem_post] <;>
        first | assumption | omega
    · simp [hg] at hst

theorem lotInv_run {spots queueSize : Int} {es : List LotEvent} :
    ∀ {s t : LotState}, LotInv spots queueSize s → lotRun s es = some t →
      LotInv spots queueSize t := by
  induction es with
  | nil =>
    intro s t h hr
    simp [lotRun] at hr
    subst hr
    exact h
  | cons e es ih =>
    intro s t h hr
    simp only [lotRun] at hr
    cases hs : lotStep s e with
    | none => simp [hs] at hr
    | some u =>
      simp [hs] at hr
      exact ih (lotInv_step h hs) hr

/-- C19 (queue-full refusal): with no free waiting slot `reserve_parking_spot`
returns false without blocking and leaves the lot unchanged, whatever the number
of free spots and the preempt flag; and for a lot initialised with
`queueSize == 0` every call in every state reached by the statements of any
number of threads returns false. -/
theorem queue_full_refusal :
    (∀ (w : World) (lot : ParkingLot) (v : Vehicle) (wakes : List ParkingLot),
        lot.waiting_slots = 0 → reserve_parking_spot w lot v wakes = some (false, lot))
    ∧ (∀ (lot0 : ParkingLot) (name : String) (spots : Int) (es : List LotEvent)
        (s : LotState), lotRun (initLot lot0 name spots 0) es = some s →
        ∀ (w : World) (v : Vehicle) (wakes : List ParkingLot),
          reserve_parking_spot w s.lot v wakes = some (false, s.lot)) := by
  have hfull : ∀ (w : World) (lot : ParkingLot) (v : Vehicle) (wakes : List ParkingLot),
      lot.waiting_slots = 0 → reserve_parking_spot w lot v wakes = some (false, lot) := by
    intro w lot v wakes h0
    have ht : trywait_waiting_slots lot = none := by
      simp [trywait_waiting_slots, sem_trywait, h0]
    by_cases hp : is_emergency_preempt w (originId lot) = true
    · simp [reserve_parking_spot, hp]
    · simp [reserve_parking_spot, hp, ht]
  refine ⟨hfull, ?_⟩
  intro lot0 name spots es s hrun w v wakes
  have hinv := lotInv_run (lotInv_init lot0 name spots 0) hrun
  apply hfull
  have := hinv.queue_sum
  simp at this
  exact this.1.1

/-- Witness of C19: a lot made with two spots and no waiting slot. -/
theorem queue_full_refusal_witness :
    lotNoQueue.lot.waiting_slots = 0
      ∧ reserve_parking_spot world0 lotNoQueue.lot carA [] = some (false, lotNoQueue.lot)
      ∧ lotRun (initLot rawLot "F10 Parking Lot" 2 0) [LotEvent.request false] = some lotNoQueue
      ∧ reserve_parking_spot world0 lotNoQueue.lot carB [] = some (false, lotNoQueue.lot) :=
  ⟨by decide, queue_full_refusal.1 world0 lotNoQueue.lot carA [] (by decide), by decide,
    queue_full_refusal.2 rawLot "F10 Parking Lot" 2 [LotEvent.request false] lotNoQueue
      (by decide) world0 carB []⟩

/-- C17 (parking conservation): for a lot made by `init_parking_lot` with
`spots >= 0` and `queueSize >= 0`, in every state reached by the statements of
reserve and release calls of any number of threads, each release being made by a
vehicle that holds a spot, `0 <= freeSpots <= max_spots` and
`0 <= freeQueueSlots <= max_queue`; and whenever no call is between taking a spot
and counting it, or between uncounting and freeing it (in particular when every
call has completed), `freeSpots + current_spots == max_spots`. -/
theorem parking_conservation (lot0 : ParkingLot) (name : String) (spots queueSize : Int)
    (hs : 0 ≤ spots) (hq : 0 ≤ queueSize) (es : List LotEvent) (s : LotState)
    (hrun : lotRun (initLot lot0 name spots queueSize) es = some s) :
    (s.granted = 0 → s.posted = 0 → s.leaving = 0 →
        (s.lot.available_spots : Int) + s.lot.current_spots = s.lot.max_spots)
      ∧ 0 ≤ (s.lot.available_spots : Int)
      ∧ (s.lot.available_spots : Int) ≤ s.lot.max_spots
      ∧ 0 ≤ (s.lot.waiting_slots : Int)
      ∧ (s.lot.waiting_slots : Int) ≤ s.lot.max_queue := by
  have h := lotInv_run (lotInv_init lot0 name spots queueSize) hrun
  have h1 := h.spots_sum
  have h2 := h.queue_sum
  have h3 := h.current_eq
  rw [h.max_spots_eq, h.max_queue_eq]
  refine ⟨?_, by omega, by omega, by omega, by omega⟩
  intro hg hp hl
  rw [h3]
  omega

/-- Witness of C17: at a lot with one spot and one waiting slot a second vehicle
queues while the first is parked and gets the spot after the release. -/
theorem parking_conservation_witness :
    (0 : Int) ≤ 1
      ∧ ∃ s, lotRun lotOneOne twoReservations = some s
        ∧ (s.granted = 0 → s.posted = 0 → s.leaving = 0 →
            (s.lot.available_spots : Int) + s.lot.current_spots = s.lot.max_spots)
        ∧ 0 ≤ (s.lot.available_spots : Int)
        ∧ (s.lot.available_spots : Int) ≤ s.lot.max_spots
        ∧ 0 ≤ (s.lot.waiting_slots : Int)
        ∧ (s.lot.waiting_slots : Int) ≤ s.lot.max_queue :=
  ⟨by decide,
    ⟨{ lot := { name := "F10 Parking Lot", max_spots := 1, max_queue := 1,
                available_spots := 0, waiting_slots := 1, current_spots := 1 },
       queued := 0, granted := 0, posted := 0, parked := 1, leaving := 0 },
      by decide,
      parking_conservation rawLot "F10 Parking Lot" 1 1 (by decide) (by decide)
        twoReservations _ (by decide)⟩⟩

/-! ## The vehicle thread and emergency preemption -/

/-- The calls of the thread of an emergency vehicle that changes intersection. -/
theorem vehicle_thread_func_cross_emergency (v : Vehicle) (r : Bool)
    (he : v.type = VehicleType.Ambulance ∨ v.type = VehicleType.FireTruck)
    (hne : v.originIntersection ≠ v.destIntersection) :
    vehicle_thread_func v r
      = [Op.notify_emergency_from_to v.originIntersection v.destIntersection,
         Op.enter_intersection v.originIntersection,
         Op.leave_intersection v.originIntersection,
         Op.set_emergency_preempt v.destIntersection false] := by
  rcases he with h | h <;> simp [vehicle_thread_func, h, hne]

/-- The calls of the thread of every other vehicle: parking calls around one
enter and one leave. -/
theorem vehicle_thread_func_other (v : Vehicle) (r : Bool)
    (h : ¬ ((v.type = VehicleType.Ambulance ∨ v.type = VehicleType.FireTruck)
          ∧ v.originIntersection ≠ v.destIntersection)) :
    ∃ pre post : List Op,
      vehicle_thread_func v r
        = pre ++ [Op.enter_intersection v.originIntersection,
                  Op.leave_intersection v.originIntersection] ++ post
      ∧ (pre = [] ∨ pre = [Op.reserve_parking_spot v.originIntersection r])
      ∧ (post = [] ∨ post = [Op.use_and_release_parking v.originIntersection]) := by
  have hc : ((v.type == VehicleType.Ambulance || v.type == VehicleType.FireTruck)
      && v.originIntersection != v.destIntersection) = false := by
    cases hb : ((v.type == VehicleType.Ambulance || v.type == VehicleType.FireTruck)
      && v.originIntersection != v.destIntersection) with
    | false => rfl
    | true =>
      exfalso
      apply h
      simpa using hb
  refine ⟨if (v.wantsParking && v.type != VehicleType.Ambulance
              && v.type != VehicleType.FireTruck) = true
            then [Op.reserve_parking_spot v.originIntersection r] else [],
          if ((v.wantsParking && v.type != VehicleType.Ambulance
              && v.type != VehicleType.FireTruck) && r) = true
            then [Op.use_and_release_parking v.originIntersection] else [], ?_, ?_, ?_⟩
  · simp only [vehicle_thread_func, hc]
    simp
  · by_cases hp : (v.wantsParking && v.type != VehicleType.Ambulance
        && v.type != VehicleType.FireTruck) = true
    · exact Or.inr (by simp only [hp, if_true])
    · exact Or.inl (by simp only [hp]; rfl)
  · by_cases hp : ((v.wantsParking && v.type != VehicleType.Ambulance
        && v.type != VehicleType.FireTruck) && r) = true
    · exact Or.inr (by simp only [hp, if_true])
    · exact Or.inl (by simp only [hp]; rfl)

/-- C14 (when the agent preempts): the calls of `vehicle_thread_func` contain a
`notify_emergency_from_to` exactly when the type is Ambulance or FireTruck and
`originIntersection != destIntersection`; then the calls are, in this order, the
notification from origin to destination, `enter_intersection`,
`leave_intersection` and `set_emergency_preempt(dest, false)`; the thread of any
other vehicle makes no call that writes an `emergency_preempt` flag. -/
theorem agent_preempts_iff (v : Vehicle) (r : Bool) :
    ((∃ a b, Op.notify_emergency_from_to a b ∈ vehicle_thread_func v r) ↔
        ((v.type = VehicleType.Ambulance ∨ v.type = VehicleType.FireTruck)
          ∧ v.originIntersection ≠ v.destIntersection))
      ∧ (((v.type = VehicleType.Ambulance ∨ v.type = VehicleType.FireTruck)
            ∧ v.originIntersection ≠ v.destIntersection) →
          vehicle_thread_func v r
            = [Op.notify_emergency_from_to v.originIntersection v.destIntersection,
               Op.enter_intersection v.originIntersection,
               Op.leave_intersection v.originIntersection,
               Op.set_emergency_preempt v.destIntersection false])
      ∧ (¬ ((v.type = VehicleType.Ambulance ∨ v.type = VehicleType.FireTruck)
            ∧ v.originIntersection ≠ v.destIntersection) →
          ∀ op ∈ vehicle_thread_func v r, op.writesPreempt = false) := by
  have hother : ¬ ((v.type = VehicleType.Ambulance ∨ v.type = VehicleType.FireTruck)
      ∧ v.originIntersection ≠ v.destIntersection) →
      ∀ op ∈ vehicle_thread_func v r, op.writesPreempt = false := by
    intro h op hop
    obtain ⟨pre, post, heq, hpre, hpost⟩ := vehicle_thread_func_other v r h
    rw [heq] at hop
    rcases hpre with rfl | rfl <;> rcases hpost with rfl | rfl <;>
      simp at hop <;> rcases hop with rfl | rfl | rfl | rfl <;> rfl
  refine ⟨⟨?_, ?_⟩, fun h => vehicle_thread_func_cross_emergency v r h.1 h.2, hother⟩
  · rintro ⟨a, b, hab⟩
    by_contra hcon
    have := hother hcon _ hab
    simp [Op.writesPreempt] at this
  · rintro ⟨he, hne⟩
    refine ⟨v.originIntersection, v.destIntersection, ?_⟩
    rw [vehicle_thread_func_cross_emergency v r he hne]
    simp

/-- Witness of C14: an ambulance from F10 to F11. -/
theorem agent_preempts_iff_witness :
    ((ambulanceX.type = VehicleType.Ambulance ∨ ambulanceX.type = VehicleType.FireTruck)
        ∧ ambulanceX.originIntersection ≠ ambulanceX.destIntersection)
      ∧ vehicle_thread_func ambulanceX false
          = [Op.notify_emergency_from_to ambulanceX.originIntersection
               ambulanceX.destIntersection,
             Op.enter_intersection ambulanceX.originIntersection,
             Op.leave_intersection ambulanceX.originIntersection,
             Op.set_emergency_preempt ambulanceX.destIntersection false] :=
  ⟨by decide, (agent_preempts_iff ambulanceX false).2.1 (by decide)⟩

theorem is_emergency_preempt_set_same (w : World) (id : IntersectionId) (b : Bool) :
    is_emergency_preempt (set_emergency_preempt w id b) id = b := by
  simp [is_emergency_preempt, set_emergency_preempt, intersection_setIntersection_same,
    set_preempt_flag]

theorem is_emergency_preempt_notify (w : World) (from_id to_id : IntersectionId)
    (h : from_id ≠ to_id) :
    is_emergency_preempt (notify_emergency_from_to w from_id to_id) to_id = true
      ∧ is_emergency_preempt (notify_emergency_from_to w from_id to_id) from_id
          = is_emergency_preempt w from_id := by
  cases from_id <;> cases to_id <;>
    simp_all [notify_emergency_from_to, is_emergency_preempt, set_emergency_preempt,
      World.setIntersection, World.intersection, set_preempt_flag]

theorem leave_intersection_preempt (I : Intersection) (v : Vehicle) :
    (leave_intersection I v).emergency_preempt = I.emergency_preempt := by
  unfold leave_intersection
  cases v.direction <;> by_cases h : I.active_count > 0 <;> simp [h]

theorem is_emergency_preempt_setLot (w : World) (lot : IntersectionId) (l : ParkingLot)
    (id : IntersectionId) :
    is_emergency_preempt (w.setLot lot l) id = is_emergency_preempt w id := by
  cases lot <;> cases id <;> simp [is_emergency_preempt, World.setLot, World.intersection]

theorem is_emergency_preempt_setIntersection (w : World) (jd : IntersectionId)
    (J : Intersection) (hJ : J.emergency_preempt = (w.intersection jd).emergency_preempt)
    (id : IntersectionId) :
    is_emergency_preempt (w.setIntersection jd J) id = is_emergency_preempt w id := by
  cases jd <;> cases id <;>
    simp_all [is_emergency_preempt, World.setIntersection, World.intersection]

/-- A call that is neither a notification nor `set_emergency_preempt` leaves both
`emergency_preempt` flags as they are. -/
theorem exec_keeps_preempt {v : Vehicle} {w w1 : World} {op : Op}
    (hop : op.writesPreempt = false) (h : exec v w op = some w1) (id : IntersectionId) :
    is_emergency_preempt w1 id = is_emergency_preempt w id := by
  cases op with
  | reserve_parking_spot lot result =>
    simp only [exec] at h
    cases hr : reserve_parking_spot w (w.lot lot) v [] with
    | none => simp [hr] at h
    | some p =>
      obtain ⟨r, got⟩ := p
      simp only [hr] at h
      by_cases hb : (r == result) = true
      · simp only [hb, if_true, Option.some.injEq] at h
        subst h
        exact is_emergency_preempt_setLot w lot got id
      · simp [hb] at h
  | notify_emergency_from_to a b => simp [Op.writesPreempt] at hop
  | enter_intersection jd =>
    simp only [exec, enter_intersection_nil] at h
    by_cases ha : admitted (w.intersection jd) v = true
    · simp only [ha, if_true, Option.map_some', Option.some.injEq] at h
      subst h
      exact is_emergency_preempt_setIntersection w jd _ (by simp) id
    · simp [ha] at h
  | leave_intersection jd =>
    simp only [exec, Option.some.injEq] at h
    subst h
    exact is_emergency_preempt_setIntersection w jd _
      (leave_intersection_preempt _ _) id
  | set_emergency_preempt jd b => simp [Op.writesPreempt] at hop
  | use_and_release_parking lot =>
    simp only [exec, Option.some.injEq] at h
    subst h
    exact is_emergency_preempt_setLot w lot _ id

theorem execOps_keeps_preempt {v : Vehicle} {ops : List Op} :
    ∀ {w w1 : World}, (∀ op ∈ ops, op.writesPreempt = false) → execOps v w ops = some w1 →
      ∀ id, is_emergency_preempt w1 id = is_emergency_preempt w id := by
  induction ops with
  | nil =>
    intro w w1 _ h id
    simp [execOps] at h
    subst h
    rfl
  | cons op ops ih =>
    intro w w1 hops h id
    simp only [execOps] at h
    cases he : exec v w op with
    | none => simp [he] at h
    | some w2 =>
      simp [he] at h
      rw [ih (fun o ho => hops o (List.mem_cons_of_mem _ ho)) h id,
        exec_keeps_preempt (hops op (List.mem_cons_self _ _)) he id]

/-- A vehicle that is not an emergency vehicle stays blocked in
`enter_intersection` as long as every state it wakes up in has the preempt flag set. -/
theorem enter_blocked_while_preempt (u : Vehicle) (hu : isEmergency u = false)
    (wakes : List Intersection) :
    ∀ I : Intersection, I.emergency_preempt = true →
      (∀ J ∈ wakes, J.emergency_preempt = true) → enter_intersection u I wakes = none := by
  induction wakes with
  | nil =>
    intro I hI _
    simp [enter_intersection, admitted, hu, hI]
  | cons J rest ih =>
    intro I hI hall
    have hna : admitted I u = false := by simp [admitted, hu, hI]
    simp only [enter_intersection, hna]
    exact ih J (hall J (List.mem_cons_self _ _))
      (fun K hK => hall K (List.mem_cons_of_mem _ hK))

/-- C15 as stated fails on the code: the thread of an ambulance from F10 to F11
clears the flag of F11 without ever calling `leave_intersection` (or
`enter_intersection`) on F11; its only leave is on F10, and after its calls up to
that leave F11 has still had no vehicle inside. -/
theorem clearing_without_leave_at_destination :
    ambulanceX.originIntersection = IntersectionId.F10
      ∧ ambulanceX.destIntersection = IntersectionId.F11
      ∧ Op.set_emergency_preempt IntersectionId.F11 false ∈ vehicle_thread_func ambulanceX false
      ∧ Op.leave_intersection IntersectionId.F11 ∉ vehicle_thread_func ambulanceX false
      ∧ Op.enter_intersection IntersectionId.F11 ∉ vehicle_thread_func ambulanceX false
      ∧ (execOps ambulanceX world0 ((vehicle_thread_func ambulanceX false).take 3)).map
          (fun w => (w.F11_intersection.active_count, w.F11_intersection.busy,
                     w.F11_intersection.emergency_preempt))
          = some (0, false, true) := by
  decide

/-- C15, amended: for every emergency vehicle with origin A different from
destination B the thread calls, in this order, the notification, which sets the
flag of B; `enter_intersection` on A and `leave_intersection` on A, neither of
which writes a preempt flag; and `set_emergency_preempt(B, false)`, which clears
the flag of B.  It calls neither enter nor leave on B.  A vehicle that is not an
emergency vehicle, waiting in `enter_intersection`, is not admitted at any
wake-up at which the flag is set. -/
theorem clearing_follows_origin_leave (v : Vehicle) (r : Bool)
    (he : v.type = VehicleType.Ambulance ∨ v.type = VehicleType.FireTruck)
    (hne : v.originIntersection ≠ v.destIntersection) :
    vehicle_thread_func v r
        = [Op.notify_emergency_from_to v.originIntersection v.destIntersection,
           Op.enter_intersection v.originIntersection,
           Op.leave_intersection v.originIntersection,
           Op.set_emergency_preempt v.destIntersection false]
      ∧ Op.leave_intersection v.destIntersection ∉ vehicle_thread_func v r
      ∧ Op.enter_intersection v.destIntersection ∉ vehicle_thread_func v r
      ∧ (∀ w : World,
          is_emergency_preempt
            (notify_emergency_from_to w v.originIntersection v.destIntersection)
            v.destIntersection = true)
      ∧ (∀ (w w1 : World) (op : Op),
          (op = Op.enter_intersection v.originIntersection
            ∨ op = Op.leave_intersection v.originIntersection) →
          exec v w op = some w1 →
          ∀ id : IntersectionId, is_emergency_preempt w1 id = is_emergency_preempt w id)
      ∧ (∀ w : World,
          is_emergency_preempt (set_emergency_preempt w v.destIntersection false)
            v.destIntersection = false)
      ∧ (∀ (u : Vehicle) (I : Intersection) (wakes : List Intersection),
          isEmergency u = false → I.emergency_preempt = true →
          (∀ J ∈ wakes, J.emergency_preempt = true) → enter_intersection u I wakes = none) := by
  have hops := vehicle_thread_func_cross_emergency v r he hne
  have hne2 : v.destIntersection ≠ v.originIntersection := fun h => hne h.symm
  refine ⟨hops, ?_, ?_, ?_, ?_, ?_, ?_⟩
  · rw [hops]
    simp [hne2]
  · rw [hops]
    simp [hne2]
  · intro w
    exact (is_emergency_preempt_notify w v.originIntersection v.destIntersection hne).1
  · intro w w1 op hop hex id
    apply exec_keeps_preempt _ hex id
    rcases hop with rfl | rfl <;> rfl
  · intro w
    exact is_emergency_preempt_set_same w v.destIntersection false
  · intro u I wakes hu hI hall
    exact enter_blocked_while_preempt u hu wakes I hI hall

/-- Witness of C15 (amended): an ambulance from F10 to F11 on the initial globals. -/
theorem clearing_follows_origin_leave_witness :
    (ambulanceX.type = VehicleType.Ambulance ∨ ambulanceX.type = VehicleType.FireTruck)
      ∧ ambulanceX.originIntersection ≠ ambulanceX.destIntersection
      ∧ vehicle_thread_func ambulanceX false
          = [Op.notify_emergency_from_to ambulanceX.originIntersection
               ambulanceX.destIntersection,
             Op.enter_intersection ambulanceX.originIntersection,
             Op.leave_intersection ambulanceX.originIntersection,
             Op.set_emergency_preempt ambulanceX.destIntersection false]
      ∧ is_emergency_preempt
          (notify_emergency_from_to world0 ambulanceX.originIntersection
            ambulanceX.destIntersection) ambulanceX.destIntersection = true
      ∧ is_emergency_preempt
          (set_emergency_preempt world0 ambulanceX.destIntersection false)
          ambulanceX.destIntersection = false :=
  ⟨by decide, by decide,
    (clearing_follows_origin_leave ambulanceX false (by decide) (by decide)).1,
    (clearing_follows_origin_leave ambulanceX false (by decide) (by decide)).2.2.2.1 world0,
    (clearing_follows_origin_leave ambulanceX false (by decide) (by decide)).2.2.2.2.2.1
      world0⟩

/-- Witness of C13: a notification from F10 to F11 on the initial globals. -/
theorem notify_scoping_witness :
    IntersectionId.F10 ≠ IntersectionId.F11
      ∧ is_emergency_preempt
          (notify_emergency_from_to world0 IntersectionId.F10 IntersectionId.F11)
          IntersectionId.F11 = true
      ∧ is_emergency_preempt
          (notify_emergency_from_to world0 IntersectionId.F10 IntersectionId.F11)
          IntersectionId.F10 = is_emergency_preempt world0 IntersectionId.F10 :=
  ⟨by decide,
    (notify_scoping world0 IntersectionId.F10 IntersectionId.F11).1 (by decide)⟩

/-- C16 (preemption lasts while any emergency is inbound), evaluated on the code:
two ambulances go from F10 to F11; both make their preempting call, then the
first enters F10, leaves it and clears the flag of F11.  The second ambulance has
preempted F11 and not yet cleared it, yet `emergency_preempt` of F11 is false and
a Bus is admitted at F11. -/
theorem preempt_cleared_while_inbound :
    (schedule twoAmbulances firstClearsWhileSecondInbound).map
        (fun s => (s.agents.map (fun a => (a.pc, a.inboundTo IntersectionId.F11)),
                   is_emergency_preempt s.world IntersectionId.F11,
                   admitted s.world.F11_intersection busF11))
      = some ([(4, false), (1, true)], false, true) := by
  decide

/-! ## Parking: calls as sequences of statements -/

/-- A `reserve_parking_spot` that returns true at once is the four statements
request, take the spot, leave the queue, count in. -/
theorem reserve_as_events (w : World) (s : LotState) (v : Vehicle) (got : ParkingLot)
    (h : reserve_parking_spot w s.lot v [] = some (true, got)) :
    lotRun s [LotEvent.request (is_emergency_preempt w (originId s.lot)), LotEvent.take_spot,
        LotEvent.leave_queue, LotEvent.count_in]
      = some { s with lot := got, parked := s.parked + 1 } := by
  unfold reserve_parking_spot at h
  by_cases hp : is_emergency_preempt w (originId s.lot) = true
  · simp [hp] at h
  · simp only [hp] at h
    cases hq : trywait_waiting_slots s.lot with
    | none => simp [hq] at h
    | some queued =>
      simp only [hq, wait_available_spots] at h
      cases ht : take_available_spot queued with
      | none => simp [ht] at h
      | some l =>
        simp [ht] at h
        subst h
        simp [lotRun, lotStep, hp, hq, ht]

/-- A `reserve_parking_spot` that returns false is one statement that changes
nothing. -/
theorem refusal_as_event (w : World) (s : LotState) (v : Vehicle) (wakes : List ParkingLot)
    (got : ParkingLot) (h : reserve_parking_spot w s.lot v wakes = some (false, got)) :
    got = s.lot
      ∧ lotRun s [LotEvent.request (is_emergency_preempt w (originId s.lot))] = some s := by
  unfold reserve_parking_spot at h
  by_cases hp : is_emergency_preempt w (originId s.lot) = true
  · simp [hp] at h
    exact ⟨h.symm, by simp [lotRun, lotStep, hp]⟩
  · simp only [hp] at h
    cases hq : trywait_waiting_slots s.lot with
    | none =>
      simp [hq] at h
      exact ⟨h.symm, by simp [lotRun, lotStep, hp, hq]⟩
    | some queued => simp [hq] at h

/-- A `use_and_release_parking` by a vehicle that holds a spot is the two
statements count out, free the spot. -/
theorem release_as_events (s : LotState) (v : Vehicle) (h : 0 < s.parked) :
    lotRun s [LotEvent.count_out, LotEvent.free_spot]
      = some { s with lot := use_and_release_parking s.lot v, parked := s.parked - 1 } := by
  simp [lotRun, lotStep, h, use_and_release_parking]

/-- Witness of C12: F10 is preempted on the initial globals; an ambulance at F10
is admitted as before. -/
theorem preempt_scoping_witness :
    isEmergency ambulanceC = true
      ∧ admitted ((set_emergency_preempt world0 IntersectionId.F10 true).intersection
            IntersectionId.F10) ambulanceC
          = admitted (world0.intersection IntersectionId.F10) ambulanceC :=
  ⟨by decide,
    (preempt_scoping world0 IntersectionId.F10 true).2.2.2.2.2.2.2.2 ambulanceC (by decide)⟩

/-! ## The light cycle -/

theorem lightF10_set_light_at_F10 (w : World) (c : LightColor) :
    (set_light_at w IntersectionId.F10 c).F10_intersection.light = c
      ∧ (set_light_at w IntersectionId.F10 c).F11_intersection = w.F11_intersection := by
  simp [set_light_at, World.setIntersection, World.intersection, set_light]

theorem lightF11_set_light_at_F11 (w : World) (c : LightColor) :
    (set_light_at w IntersectionId.F11 c).F11_intersection.light = c
      ∧ (set_light_at w IntersectionId.F11 c).F10_intersection = w.F10_intersection := by
  simp [set_light_at, World.setIntersection, World.intersection, set_light]

theorem lightInv_start (w : World) : LightInv (start_traffic_lights w) := by
  simp [LightInv, start_traffic_lights]

theorem lightInv_step {s t : LightSystem} (h : LightInv s) {e : LightEvent}
    (hst : lightStep s e = some t) : LightInv t := by
  cases e with
  | stop =>
    simp only [lightStep, stop_traffic_lights, Option.some.injEq] at hst
    subst hst
    exact h
  | manager =>
    obtain ⟨w, running, pc, phase⟩ := s
    cases pc <;> cases running <;>
      simp [lightStep, traffic_light_manager] at hst <;>
      subst hst <;>
      simp [LightInv, LightSystem.lightF10, LightSystem.lightF11, set_light_at,
        World.setIntersection, World.intersection, set_light] at h ⊢ <;>
      first | omega | (simp [h]; done) | (exact ⟨h.1, by omega⟩)

theorem lightInv_run {es : List LightEvent} :
    ∀ {s t : LightSystem}, LightInv s → lightRun s es = some t → LightInv t := by
  induction es with
  | nil =>
    intro s t h hr
    simp [lightRun] at hr
    subst hr
    exact h
  | cons e es ih =>
    intro s t h hr
    simp only [lightRun] at hr
    cases hs : lightStep s e with
    | none => simp [hs] at hr
    | some u =>
      simp [hs] at hr
      exact ih (lightInv_step h hs) hr

theorem lightRun_append (es fs : List LightEvent) :
    ∀ s : LightSystem, lightRun s (es ++ fs) = (lightRun s es).bind (fun t => lightRun t fs) := by
  induction es with
  | nil => intro s; simp [lightRun]
  | cons e es ih =>
    intro s
    simp only [List.cons_append, lightRun]
    cases lightStep s e with
    | none => simp
    | some u => simp [ih u]

/-- Undisturbed, the manager reaches every phase number. -/
theorem phase_reached (w : World) (k : Nat) :
    ∃ es s, lightRun (start_traffic_lights w) es = some s ∧ s.phase = k
      ∧ s.traffic_running = true
      ∧ (s.pc = ManagerPc.whileTest ∨ s.pc = ManagerPc.secondCheck) := by
  induction k with
  | zero =>
    exact ⟨managerTicks 2, _, rfl, rfl, rfl, Or.inl rfl⟩
  | succ k ih =>
    obtain ⟨es, s, hrun, hk, hr, hpc⟩ := ih
    obtain ⟨sw, running, pc, phase⟩ := s
    simp only at hk hr hpc
    subst hk hr
    rcases hpc with rfl | rfl
    · refine ⟨es ++ managerTicks 4,
        { world := set_light_at (set_light_at sw IntersectionId.F10 LightColor.RED)
            IntersectionId.F11 LightColor.GREEN,
          traffic_running := true, pc := ManagerPc.secondCheck, phase := phase + 1 },
        ?_, ?_, ?_, ?_⟩
      · rw [lightRun_append, hrun]
        rfl
      · rfl
      · rfl
      · exact Or.inr rfl
    · refine ⟨es ++ managerTicks 3,
        { world := set_light_at (set_light_at sw IntersectionId.F10 LightColor.GREEN)
            IntersectionId.F11 LightColor.RED,
          traffic_running := true, pc := ManagerPc.whileTest, phase := phase + 1 },
        ?_, ?_, ?_, ?_⟩
      · rw [lightRun_append, hrun]
        rfl
      · rfl
      · rfl
      · exact Or.inl rfl

/-- Outside the two-call windows the lights are in one of the two phases. -/
theorem settled_lights {s : LightSystem} (h : LightInv s) (hs : s.pc.settled = true) :
    (s.lightF10 = LightColor.GREEN ∧ s.lightF11 = LightColor.RED ∧ s.phase % 2 = 0)
      ∨ (s.lightF10 = LightColor.RED ∧ s.lightF11 = LightColor.GREEN ∧ s.phase % 2 = 1) := by
  obtain ⟨sw, running, pc, phase⟩ := s
  cases pc <;> simp only [ManagerPc.settled, Bool.false_eq_true] at hs <;>
    simp only [LightInv] at h <;>
    first | exact Or.inl h | exact Or.inr h | exact h

/-- C22 (anti-phase light cycle): after the initial setting and after every
completed phase change exactly one of F10 and F11 is GREEN; F10 is GREEN exactly
in the phases of even number, counted from 0, so the first phase has F10 GREEN
and F11 RED; and the manager, left running, reaches every phase. -/
theorem antiphase_light_cycle (w : World) :
    (∀ (es : List LightEvent) (s : LightSystem),
        lightRun (start_traffic_lights w) es = some s → s.pc.settled = true →
        ((s.lightF10 = LightColor.GREEN ∧ s.lightF11 = LightColor.RED)
            ∨ (s.lightF10 = LightColor.RED ∧ s.lightF11 = LightColor.GREEN))
          ∧ (s.lightF10 = LightColor.GREEN ↔ s.phase % 2 = 0)
          ∧ (s.phase = 0 → s.lightF10 = LightColor.GREEN ∧ s.lightF11 = LightColor.RED))
      ∧ (∀ k : Nat, ∃ es s, lightRun (start_traffic_lights w) es = some s
          ∧ s.pc.settled = true ∧ s.phase = k) := by
  constructor
  · intro es s hrun hset
    rcases settled_lights (lightInv_run (lightInv_start w) hrun) hset with
      ⟨h1, h2, h3⟩ | ⟨h1, h2, h3⟩
    · rw [h1, h2]
      exact ⟨Or.inl ⟨rfl, rfl⟩, ⟨fun _ => h3, fun _ => rfl⟩, fun _ => ⟨rfl, rfl⟩⟩
    · rw [h1, h2]
      refine ⟨Or.inr ⟨rfl, rfl⟩, ⟨?_, ?_⟩, ?_⟩
      · intro h
        cases h
      · intro h
        omega
      · intro h0
        omega
  · intro k
    obtain ⟨es, s, hrun, hk, _, hpc⟩ := phase_reached w k
    refine ⟨es, s, hrun, ?_, hk⟩
    rcases hpc with h | h <;> simp [h, ManagerPc.settled]

/-- Witness of C22: the state after the first completed phase change. -/
theorem antiphase_light_cycle_witness :
    ∃ s, lightRun (start_traffic_lights world0) (managerTicks 6) = some s
      ∧ s.pc.settled = true ∧ s.phase = 1
      ∧ ((s.lightF10 = LightColor.GREEN ∧ s.lightF11 = LightColor.RED)
            ∨ (s.lightF10 = LightColor.RED ∧ s.lightF11 = LightColor.GREEN))
      ∧ (s.lightF10 = LightColor.GREEN ↔ s.phase % 2 = 0)
      ∧ (s.phase = 0 → s.lightF10 = LightColor.GREEN ∧ s.lightF11 = LightColor.RED) :=
  ⟨{ world := set_light_at (set_light_at (set_light_at (set_light_at world0
        IntersectionId.F10 LightColor.GREEN) IntersectionId.F11 LightColor.RED)
        IntersectionId.F10 LightColor.RED) IntersectionId.F11 LightColor.GREEN,
     traffic_running := true, pc := ManagerPc.secondCheck, phase := 1 },
    by decide, by decide, by decide,
    (antiphase_light_cycle world0).1 (managerTicks 6) _ (by decide) (by decide)⟩

/-- C27 as stated fails on the code: the switch back sets F10 GREEN before it
sets F11 RED.  After eight statements of the manager (the seventh state has F10
RED and F11 GREEN, the next call is `set_light(F10_intersection, GREEN)`) both
lights are GREEN, the call `set_light(F11_intersection, RED)` being still to come. -/
theorem both_green_during_switch_back :
    (lightRun (start_traffic_lights world0) (managerTicks 7)).map
        (fun s => (s.pc, s.lightF10, s.lightF11))
      = some (ManagerPc.cycleF10green, LightColor.RED, LightColor.GREEN)
    ∧ (lightRun (start_traffic_lights world0) (managerTicks 8)).map
        (fun s => (s.pc, s.lightF10, s.lightF11))
      = some (ManagerPc.cycleF11red, LightColor.GREEN, LightColor.GREEN) := by
  decide

/-- C27, amended: taking each `set_light` call as one step, in every state reached
after the initial setting F10 and F11 are not both GREEN, except in the state
between the two calls of a switch back to F10 GREEN and F11 RED, where F10 is
already GREEN and F11 still GREEN. -/
theorem both_green_only_during_switch_back (w : World) (es : List LightEvent)
    (s : LightSystem) (hrun : lightRun (start_traffic_lights w) es = some s)
    (hpast : s.pc.pastInitial = true) :
    (s.lightF10 = LightColor.GREEN ∧ s.lightF11 = LightColor.GREEN)
      ↔ s.pc = ManagerPc.cycleF11red := by
  have h := lightInv_run (lightInv_start w) hrun
  obtain ⟨sw, running, pc, phase⟩ := s
  cases pc <;> simp only [ManagerPc.pastInitial, Bool.false_eq_true] at hpast <;>
    simp only [LightInv] at h
  case returned =>
    rcases h with ⟨h1, h2, _⟩ | ⟨h1, h2, _⟩ <;> simp [h1, h2]
  all_goals
    obtain ⟨h1, h2, _⟩ := h
    simp [h1, h2]

/-- Witness of C27 (amended): the state after the switch to F10 RED, F11 GREEN. -/
theorem both_green_only_during_switch_back_witness :
    ∃ s, lightRun (start_traffic_lights world0) (managerTicks 6) = some s
      ∧ s.pc.pastInitial = true
      ∧ ((s.lightF10 = LightColor.GREEN ∧ s.lightF11 = LightColor.GREEN)
          ↔ s.pc = ManagerPc.cycleF11red) :=
  ⟨{ world := set_light_at (set_light_at (set_light_at (set_light_at world0
        IntersectionId.F10 LightColor.GREEN) IntersectionId.F11 LightColor.RED)
        IntersectionId.F10 LightColor.RED) IntersectionId.F11 LightColor.GREEN,
     traffic_running := true, pc := ManagerPc.secondCheck, phase := 1 },
    by decide, by decide,
    both_green_only_during_switch_back world0 (managerTicks 6) _ (by decide) (by decide)⟩

/-! ## Waiting at a RED light -/

/-- A Car, Bike or Tractor stays blocked in `enter_intersection` as long as every
state it wakes up in has a RED light. -/
theorem enter_blocked_while_red (v : Vehicle)
    (hv : v.type = VehicleType.Car ∨ v.type = VehicleType.Bike ∨ v.type = VehicleType.Tractor)
    (wakes : List Intersection) :
    ∀ I : Intersection, I.light = LightColor.RED →
      (∀ J ∈ wakes, J.light = LightColor.RED) → enter_intersection v I wakes = none := by
  have hna : ∀ I : Intersection, I.light = LightColor.RED → admitted I v = false := by
    intro I hI
    rcases hv with h | h | h <;> simp [admitted, isEmergency, h, hI]
  induction wakes with
  | nil =>
    intro I hI _
    simp [enter_intersection, hna I hI]
  | cons J rest ih =>
    intro I hI hall
    simp only [enter_intersection, hna I hI]
    exact ih J (hall J (List.mem_cons_self _ _))
      (fun K hK => hall K (List.mem_cons_of_mem _ hK))

/-- The first state of the list in which the vehicle is admitted decides the
result of `enter_intersection`. -/
theorem enter_intersection_append_admitted (v : Vehicle) (J : Intersection)
    (hJ : admitted J v = true) (wakes : List Intersection) :
    ∀ I : Intersection, admitted I v = false → (∀ K ∈ wakes, admitted K v = false) →
      enter_intersection v I (wakes ++ [J]) = some (register_movement J v) := by
  induction wakes with
  | nil =>
    intro I hI _
    simp [enter_intersection, hI, hJ]
  | cons K rest ih =>
    intro I hI hall
    simp only [List.cons_append, enter_intersection, hI]
    exact ih K (hall K (List.mem_cons_self _ _))
      (fun L hL => hall L (List.mem_cons_of_mem _ hL))

/-- C23 (RED-to-GREEN scenario): at an empty intersection with no preemption and a
RED light a Car, Bike or Tractor in `enter_intersection` is not admitted however
often it is woken while the state is unchanged; `set_light(I, GREEN)` changes the
light and no other field, and at the next evaluation the vehicle is admitted. -/
theorem red_to_green_scenario (I : Intersection) (v : Vehicle)
    (hv : v.type = VehicleType.Car ∨ v.type = VehicleType.Bike ∨ v.type = VehicleType.Tractor)
    (h0 : I.active_count = 0) (hp : I.emergency_preempt = false)
    (hr : I.light = LightColor.RED) :
    (∀ n : Nat, enter_intersection v I (List.replicate n I) = none)
      ∧ (set_light I LightColor.GREEN).light = LightColor.GREEN
      ∧ set_light I LightColor.GREEN = { I with light := LightColor.GREEN }
      ∧ admitted (set_light I LightColor.GREEN) v = true
      ∧ (∀ n : Nat,
          enter_intersection v I (List.replicate n I ++ [set_light I LightColor.GREEN])
            = some (register_movement (set_light I LightColor.GREEN) v)) := by
  have hna : admitted I v = false := by
    rcases hv with h | h | h <;> simp [admitted, isEmergency, h, hr]
  have hadm : admitted (set_light I LightColor.GREEN) v = true := by
    rcases hv with h | h | h <;>
      simp [admitted, isEmergency, h, set_light, hp, canEnterNow, h0]
  refine ⟨?_, rfl, rfl, hadm, ?_⟩
  · intro n
    apply enter_blocked_while_red v hv _ I hr
    intro J hJ
    rw [List.eq_of_mem_replicate hJ]
    exact hr
  · intro n
    apply enter_intersection_append_admitted v _ hadm _ I hna
    intro K hK
    rw [List.eq_of_mem_replicate hK]
    exact hna

/-- Witness of C23: a car at F11 of the initial globals, whose light is RED. -/
theorem red_to_green_scenario_witness :
    (carAtF11.type = VehicleType.Car ∨ carAtF11.type = VehicleType.Bike
        ∨ carAtF11.type = VehicleType.Tractor)
      ∧ world0.F11_intersection.active_count = 0
      ∧ world0.F11_intersection.emergency_preempt = false
      ∧ world0.F11_intersection.light = LightColor.RED
      ∧ (∀ n : Nat, enter_intersection carAtF11 world0.F11_intersection
            (List.replicate n world0.F11_intersection) = none)
      ∧ admitted (set_light world0.F11_intersection LightColor.GREEN) carAtF11 = true :=
  ⟨by decide, by decide, by decide, by decide,
    (red_to_green_scenario world0.F11_intersection carAtF11 (by decide) (by decide)
      (by decide) (by decide)).1,
    (red_to_green_scenario world0.F11_intersection carAtF11 (by decide) (by decide)
      (by decide) (by decide)).2.2.2.1⟩

/-- Once the manager has returned no light changes any more. -/
theorem lights_frozen_after_return (es : List LightEvent) :
    ∀ s t : LightSystem, s.pc = ManagerPc.returned → lightRun s es = some t →
      t.world = s.world ∧ t.pc = ManagerPc.returned := by
  induction es with
  | nil =>
    intro s t hs hr
    simp [lightRun] at hr
    subst hr
    exact ⟨rfl, hs⟩
  | cons e es ih =>
    intro s t hs hr
    cases e with
    | manager => simp [lightRun, lightStep, traffic_light_manager, hs] at hr
    | stop =>
      simp only [lightRun, lightStep, Option.some_bind] at hr
      exact ih (stop_traffic_lights s) t hs hr

/-- C24 (shutdown leaves nobody blocked), evaluated on the code: the manager makes
the initial setting, `stop_traffic_lights` is called while F11 is RED and empty,
and the manager returns.  The stop changes no field of an intersection, no light
changes afterwards, and a car waiting in `enter_intersection` at F11 is not
admitted at the wake-up of the final broadcast nor at any later wake-up at which
the light is RED: it stays blocked. -/
theorem shutdown_leaves_car_blocked :
    lightRun (start_traffic_lights world0) stopDuringFirstPhase = some stoppedAtRed
      ∧ stoppedAtRed.pc = ManagerPc.returned
      ∧ stoppedAtRed.lightF11 = LightColor.RED
      ∧ stoppedAtRed.world.F11_intersection.active_count = 0
      ∧ stoppedAtRed.world.F11_intersection.emergency_preempt = false
      ∧ (∀ s : LightSystem, (stop_traffic_lights s).world = s.world)
      ∧ (∀ (es : List LightEvent) (t : LightSystem), lightRun stoppedAtRed es = some t →
          t.world = stoppedAtRed.world)
      ∧ (∀ n : Nat, enter_intersection carAtF11 stoppedAtRed.world.F11_intersection
            (List.replicate n stoppedAtRed.world.F11_intersection) = none)
      ∧ (∀ wakes : List Intersection, (∀ J ∈ wakes, J.light = LightColor.RED) →
          enter_intersection carAtF11 stoppedAtRed.world.F11_intersection wakes = none) := by
  have hred : stoppedAtRed.world.F11_intersection.light = LightColor.RED := by decide
  refine ⟨by decide, rfl, hred, by decide, by decide, fun _ => rfl, ?_, ?_, ?_⟩
  · intro es t hrun
    exact (lights_frozen_after_return es stoppedAtRed t rfl hrun).1
  · intro n
    apply enter_blocked_while_red carAtF11 (Or.inl rfl) _ _ hred
    intro J hJ
    rw [List.eq_of_mem_replicate hJ]
    exact hred
  · intro wakes hall
    exact enter_blocked_while_red carAtF11 (Or.inl rfl) wakes _ hred hall

/-! ## Parking: blocked reservations and refusals -/

theorem wait_available_spots_blocked (wakes : List ParkingLot) :
    ∀ lot : ParkingLot, lot.available_spots = 0 → (∀ l ∈ wakes, l.available_spots = 0) →
      wait_available_spots lot wakes = none := by
  induction wakes with
  | nil =>
    intro lot h0 _
    simp [wait_available_spots, take_available_spot, sem_trywait, h0]
  | cons next rest ih =>
    intro lot h0 hall
    simp only [wait_available_spots, take_available_spot, sem_trywait, h0]
    simp only [gt_iff_lt, Nat.lt_irrefl, if_false, Option.map_none']
    exact ih next (hall next (List.mem_cons_self _ _))
      (fun l hl => hall l (List.mem_cons_of_mem _ hl))

/-- C21 (blocked reservation): with no preemption, no free spot and a free waiting
slot, `reserve_parking_spot` takes one waiting slot and does not return as long
as no spot is free; in the waiting state there is one waiting slot less and
`current_spots` is unchanged.  After one `use_and_release_parking` by a holder the
call returns true with the waiting slots back to their number, no free spot and
`current_spots` as before the release.  If the waiting call took the last
waiting slot, any further `reserve_parking_spot` in the meantime returns false. -/
theorem blocked_reservation (w : World) (lot : ParkingLot) (v x : Vehicle)
    (hp : is_emergency_preempt w (originId lot) = false)
    (h0 : lot.available_spots = 0) (hq : 0 < lot.waiting_slots) :
    ∃ waiting, reserve_waiting_state w lot = some waiting
      ∧ waiting.waiting_slots + 1 = lot.waiting_slots
      ∧ waiting.current_spots = lot.current_spots
      ∧ waiting.available_spots = 0
      ∧ (∀ wakes : List ParkingLot, (∀ l ∈ wakes, l.available_spots = 0) →
          reserve_parking_spot w lot v wakes = none)
      ∧ (∃ got, reserve_parking_spot w lot v [use_and_release_parking waiting x]
            = some (true, got)
          ∧ got.waiting_slots = lot.waiting_slots
          ∧ got.available_spots = 0
          ∧ got.current_spots = lot.current_spots)
      ∧ (waiting.waiting_slots = 0 → ∀ (w2 : World) (z : Vehicle) (wakes : List ParkingLot),
          reserve_parking_spot w2 waiting z wakes = some (false, waiting)) := by
  obtain ⟨name, ms, mq, a, q, c⟩ := lot
  simp only at h0 hq
  subst h0
  have hq1 : trywait_waiting_slots ⟨name, ms, mq, 0, q, c⟩
      = some ⟨name, ms, mq, 0, q - 1, c⟩ := by
    simp [trywait_waiting_slots, sem_trywait, hq]
  refine ⟨⟨name, ms, mq, 0, q - 1, c⟩, ?_, ?_, rfl, rfl, ?_, ?_, ?_⟩
  · simp [reserve_waiting_state, hp, hq1]
  · simp only
    omega
  · intro wakes hall
    simp only [reserve_parking_spot, hp, hq1]
    rw [wait_available_spots_blocked wakes _ rfl hall]
    rfl
  · refine ⟨⟨name, ms, mq, 0, q - 1 + 1, c - 1 + 1⟩, ?_, ?_, rfl, ?_⟩
    · simp [reserve_parking_spot, hp, hq1, wait_available_spots, take_available_spot,
        sem_trywait, use_and_release_parking, post_available_spots, dec_current_spots,
        sem_post, inc_current_spots, post_waiting_slots]
    · simp only
      omega
    · simp only
      omega
  · intro hz w2 z wakes
    simp only at hz
    have ht : trywait_waiting_slots ⟨name, ms, mq, 0, q - 1, c⟩ = none := by
      simp [trywait_waiting_slots, sem_trywait, hz]
    by_cases hp2 : is_emergency_preempt w2 (originId ⟨name, ms, mq, 0, q - 1, c⟩) = true
    · simp [reserve_parking_spot, hp2]
    · simp [reserve_parking_spot, hp2, ht]

/-- Witness of C21: the scenario with one spot and one waiting slot.  X holds the
spot; Y waits with the waiting slot taken; a third vehicle is refused; after the
release by X the call of Y returns true. -/
theorem blocked_reservation_witness :
    is_emergency_preempt world0 (originId lotSpotTaken) = false
      ∧ lotSpotTaken.available_spots = 0 ∧ 0 < lotSpotTaken.waiting_slots
      ∧ reserve_waiting_state world0 lotSpotTaken = some lotWhileWaiting
      ∧ reserve_parking_spot world0 lotSpotTaken carB [] = none
      ∧ reserve_parking_spot world0 lotWhileWaiting ambulanceC [] = some (false, lotWhileWaiting)
      ∧ reserve_parking_spot world0 lotSpotTaken carB [use_and_release_parking lotWhileWaiting carA]
          = some (true, lotSpotTaken)
      ∧ ∃ waiting, reserve_waiting_state world0 lotSpotTaken = some waiting
          ∧ waiting.waiting_slots + 1 = lotSpotTaken.waiting_slots
          ∧ waiting.current_spots = lotSpotTaken.current_spots
          ∧ waiting.available_spots = 0
          ∧ (∀ wakes : List ParkingLot, (∀ l ∈ wakes, l.available_spots = 0) →
              reserve_parking_spot world0 lotSpotTaken carB wakes = none)
          ∧ (∃ got, reserve_parking_spot world0 lotSpotTaken carB
                [use_and_release_parking waiting carA] = some (true, got)
              ∧ got.waiting_slots = lotSpotTaken.waiting_slots
              ∧ got.available_spots = 0
              ∧ got.current_spots = lotSpotTaken.current_spots)
          ∧ (waiting.waiting_slots = 0 →
              ∀ (w2 : World) (z : Vehicle) (wakes : List ParkingLot),
                reserve_parking_spot w2 waiting z wakes = some (false, waiting)) :=
  ⟨by decide, by decide, by decide, by decide, by decide, by decide, by decide,
    blocked_reservation world0 lotSpotTaken carB carA (by decide) (by decide) (by decide)⟩

/-- C26 as stated fails on the code: while F10 is preempted a call at the F10 lot
returns false although five waiting slots (and ten spots) are free. -/
theorem reserve_false_with_free_queue :
    0 < worldPreemptF10.F10_parking.waiting_slots
      ∧ worldPreemptF10.F10_parking.waiting_slots = 5
      ∧ worldPreemptF10.F10_parking.available_spots = 10
      ∧ is_emergency_preempt worldPreemptF10 (originId worldPreemptF10.F10_parking) = true
      ∧ reserve_parking_spot worldPreemptF10 worldPreemptF10.F10_parking carB []
          = some (false, worldPreemptF10.F10_parking) := by
  decide

theorem wait_available_spots_some (wakes : List ParkingLot) :
    ∀ lot got : ParkingLot, wait_available_spots lot wakes = some got →
      ∃ seen ∈ lot :: wakes, 0 < seen.available_spots
        ∧ got = { seen with available_spots := seen.available_spots - 1 } := by
  induction wakes with
  | nil =>
    intro lot got h
    simp only [wait_available_spots, take_available_spot] at h
    cases ht : sem_trywait lot.available_spots with
    | none => simp [ht] at h
    | some a =>
      simp only [ht, Option.map_some', Option.some.injEq] at h
      have := sem_trywait_eq_some.1 ht
      refine ⟨lot, by simp, this.1, ?_⟩
      rw [← h]
      have ha : a = lot.available_spots - 1 := by omega
      rw [ha]
  | cons next rest ih =>
    intro lot got h
    simp only [wait_available_spots, take_available_spot] at h
    cases ht : sem_trywait lot.available_spots with
    | none =>
      simp only [ht, Option.map_none'] at h
      obtain ⟨seen, hmem, hpos, hgot⟩ := ih next got h
      exact ⟨seen, List.mem_cons_of_mem _ hmem, hpos, hgot⟩
    | some a =>
      simp only [ht, Option.map_some', Option.some.injEq] at h
      have := sem_trywait_eq_some.1 ht
      refine ⟨lot, by simp, this.1, ?_⟩
      rw [← h]
      have ha : a = lot.available_spots - 1 := by omega
      rw [ha]

/-- C26, amended: `reserve_parking_spot` returns true only having taken a waiting
slot and then a free spot, which it counts in `current_spots`; it returns false
only if the waiting queue was full or `emergency_preempt` of the intersection
associated with the lot was set at the time of the call, and then the lot is
unchanged. -/
theorem reserve_return_value (w : World) (lot : ParkingLot) (v : Vehicle)
    (wakes : List ParkingLot) (r : Bool) (got : ParkingLot)
    (h : reserve_parking_spot w lot v wakes = some (r, got)) :
    (r = false →
        (lot.waiting_slots = 0 ∨ is_emergency_preempt w (originId lot) = true) ∧ got = lot)
      ∧ (r = true →
        is_emergency_preempt w (originId lot) = false ∧ 0 < lot.waiting_slots
          ∧ ∃ seen ∈ { lot with waiting_slots := lot.waiting_slots - 1 } :: wakes,
              0 < seen.available_spots
                ∧ got.available_spots + 1 = seen.available_spots
                ∧ got.current_spots = seen.current_spots + 1
                ∧ got.waiting_slots = seen.waiting_slots + 1) := by
  unfold reserve_parking_spot at h
  by_cases hp : is_emergency_preempt w (originId lot) = true
  · simp only [hp, if_true, Option.some.injEq, Prod.mk.injEq] at h
    obtain ⟨hr, hg⟩ := h
    subst hr hg
    exact ⟨fun _ => ⟨Or.inr hp, rfl⟩, fun hc => by cases hc⟩
  · simp only [hp] at h
    cases hq : sem_trywait lot.waiting_slots with
    | none =>
      simp only [trywait_waiting_slots, hq, Option.map_none', Bool.false_eq_true, if_false,
        Option.some.injEq, Prod.mk.injEq] at h
      obtain ⟨hr, hg⟩ := h
      subst hr hg
      exact ⟨fun _ => ⟨Or.inl (sem_trywait_eq_none.1 hq), rfl⟩, fun hc => by cases hc⟩
    | some q =>
      have hq2 := sem_trywait_eq_some.1 hq
      have hqv : q = lot.waiting_slots - 1 := by omega
      subst hqv
      simp only [trywait_waiting_slots, hq, Option.map_some', Bool.false_eq_true,
        if_false] at h
      cases hw : wait_available_spots { lot with waiting_slots := lot.waiting_slots - 1 }
          wakes with
      | none => simp [hw] at h
      | some taken =>
        simp only [hw, Option.map_some', Option.some.injEq, Prod.mk.injEq] at h
        obtain ⟨hr, hg⟩ := h
        subst hr hg
        obtain ⟨seen, hmem, hpos, htaken⟩ := wait_available_spots_some wakes _ _ hw
        refine ⟨?_, ?_⟩
        · intro hc
          cases hc
        · intro _
          refine ⟨by simpa using hp, hq2.1, seen, hmem, hpos, ?_⟩
          subst htaken
          simp only [inc_current_spots, post_waiting_slots, sem_post]
          exact ⟨by omega, trivial, trivial⟩

/-- Witness of C26 (amended): the refusal under preemption at the F10 lot. -/
theorem reserve_return_value_witness :
    reserve_parking_spot worldPreemptF10 worldPreemptF10.F10_parking carB []
        = some (false, worldPreemptF10.F10_parking)
      ∧ ((worldPreemptF10.F10_parking.waiting_slots = 0
            ∨ is_emergency_preempt worldPreemptF10 (originId worldPreemptF10.F10_parking) = true)
          ∧ worldPreemptF10.F10_parking = worldPreemptF10.F10_parking) :=
  ⟨by decide,
    (reserve_return_value worldPreemptF10 worldPreemptF10.F10_parking carB [] false
      worldPreemptF10.F10_parking (by decide)).1 rfl⟩

/-! ## Parking: the intersection of a lot, and unguarded release -/

theorem startsWithChars_iff (pattern : List Char) :
    ∀ text : List Char, startsWithChars pattern text = true ↔ ∃ post, text = pattern ++ post := by
  induction pattern with
  | nil =>
    intro text
    simp [startsWithChars]
  | cons p ps ih =>
    intro text
    cases text with
    | nil => simp [startsWithChars]
    | cons c cs =>
      simp only [startsWithChars, Bool.and_eq_true, beq_iff_eq, ih cs, List.cons_append,
        List.cons.injEq]
      constructor
      · rintro ⟨rfl, post, rfl⟩
        exact ⟨post, rfl, rfl⟩
      · rintro ⟨post, rfl, rfl⟩
        exact ⟨rfl, post, rfl⟩

/-- The search `findChars` succeeds exactly when the pattern occurs in the text. -/
theorem findChars_iff (pattern : List Char) :
    ∀ text : List Char,
      findChars pattern text = true ↔ ∃ pre post, text = pre ++ pattern ++ post := by
  intro text
  induction text with
  | nil =>
    simp only [findChars, startsWithChars_iff]
    constructor
    · rintro ⟨post, h⟩
      exact ⟨[], post, by simpa using h⟩
    · rintro ⟨pre, post, h⟩
      have h1 : pre ++ pattern ++ post = [] := h.symm
      simp only [List.append_eq_nil] at h1
      exact ⟨[], by simp [h1.1.2]⟩
  | cons c cs ih =>
    simp only [findChars, Bool.or_eq_true, startsWithChars_iff, ih]
    constructor
    · rintro (⟨post, h⟩ | ⟨pre, post, h⟩)
      · exact ⟨[], post, by simpa using h⟩
      · exact ⟨c :: pre, post, by simp [h]⟩
    · rintro ⟨pre, post, h⟩
      cases pre with
      | nil => exact Or.inl ⟨post, by simpa using h⟩
      | cons d pre =>
        simp only [List.cons_append, List.cons.injEq] at h
        exact Or.inr ⟨pre, post, h.2⟩

/-- C29 (the intersection of a lot is chosen by its name): `reserve_parking_spot`
consults the preempt flag of F10 exactly when the name of the lot contains the
text F10, and that of F11 for every other name; its result depends on the globals
through that one flag only.  So for a name without F10, such as the empty name,
the flag of F10 never matters, and for a name with both F10 and F11 the flag of
F11 never matters. -/
theorem lot_association_by_name (lot : ParkingLot) :
    (originId lot = IntersectionId.F10 ↔
        ∃ pre post, lot.name.toList = pre ++ "F10".toList ++ post)
      ∧ (originId lot = IntersectionId.F11 ↔
        ¬ ∃ pre post, lot.name.toList = pre ++ "F10".toList ++ post)
      ∧ (∀ (w w2 : World) (v : Vehicle) (wakes : List ParkingLot),
          (w.intersection (originId lot)).emergency_preempt
              = (w2.intersection (originId lot)).emergency_preempt →
          reserve_parking_spot w lot v wakes = reserve_parking_spot w2 lot v wakes)
      ∧ (∀ (w : World) (v : Vehicle) (wakes : List ParkingLot) (b : Bool),
          reserve_parking_spot (set_emergency_preempt w (otherId (originId lot)) b) lot v wakes
            = reserve_parking_spot w lot v wakes)
      ∧ (∀ (w : World) (v : Vehicle) (wakes : List ParkingLot),
          reserve_parking_spot (set_emergency_preempt w (originId lot) true) lot v wakes
            = some (false, lot)) := by
  have hfind := findChars_iff "F10".toList lot.name.toList
  have hdep : ∀ (w w2 : World) (v : Vehicle) (wakes : List ParkingLot),
      (w.intersection (originId lot)).emergency_preempt
          = (w2.intersection (originId lot)).emergency_preempt →
      reserve_parking_spot w lot v wakes = reserve_parking_spot w2 lot v wakes := by
    intro w w2 v wakes h
    simp only [reserve_parking_spot, is_emergency_preempt, h]
  refine ⟨?_, ?_, hdep, ?_, ?_⟩
  · rw [← hfind]
    unfold originId
    by_cases hc : findChars "F10".toList lot.name.toList = true <;> simp [hc]
  · rw [← hfind]
    unfold originId
    by_cases hc : findChars "F10".toList lot.name.toList = true <;> simp [hc]
  · intro w v wakes b
    apply hdep
    rw [set_emergency_preempt,
      intersection_setIntersection_ne w (otherId_ne (originId lot)).symm]
  · intro w v wakes
    simp [reserve_parking_spot, is_emergency_preempt_set_same]

/-- The two names of C29: the lot with the empty name belongs to F11, the lot
whose name mentions F11 and F10 belongs to F10. -/
theorem originId_samples :
    originId lotNoName = IntersectionId.F11
      ∧ originId lotBothNames = IntersectionId.F10
      ∧ reserve_parking_spot (set_emergency_preempt world0 IntersectionId.F10 true)
          lotNoName carA [] ≠ some (false, lotNoName)
      ∧ reserve_parking_spot (set_emergency_preempt world0 IntersectionId.F11 true)
          lotNoName carA [] = some (false, lotNoName)
      ∧ reserve_parking_spot (set_emergency_preempt world0 IntersectionId.F11 true)
          lotBothNames carA [] ≠ some (false, lotBothNames)
      ∧ reserve_parking_spot (set_emergency_preempt world0 IntersectionId.F10 true)
          lotBothNames carA [] = some (false, lotBothNames) := by
  decide

/-- Witness of C29: for the lot with the empty name a preemption of F10 changes
nothing. -/
theorem lot_association_by_name_witness :
    (world0.intersection (originId lotNoName)).emergency_preempt
        = ((set_emergency_preempt world0 IntersectionId.F10 true).intersection
            (originId lotNoName)).emergency_preempt
      ∧ reserve_parking_spot world0 lotNoName carA []
          = reserve_parking_spot (set_emergency_preempt world0 IntersectionId.F10 true)
              lotNoName carA [] :=
  ⟨by decide,
    (lot_association_by_name lotNoName).2.2.1 world0
      (set_emergency_preempt world0 IntersectionId.F10 true) carA [] (by decide)⟩

/-- Below the limit the two descriptions of the release agree. -/
theorem use_and_release_parking_limited_eq (lot : ParkingLot) (v : Vehicle)
    (hlim : lot.available_spots < SEM_VALUE_MAX) :
    use_and_release_parking_limited lot v = use_and_release_parking lot v := by
  simp [use_and_release_parking_limited, use_and_release_parking, post_available_spots,
    dec_current_spots, sem_post_limited, sem_post, hlim]

/-- In the runs of the parking protocol on a lot made with at most
`SEM_VALUE_MAX` spots and waiting slots, no `sem_post` finds its semaphore at the
limit: a thread about to free a spot or to leave the queue holds one itself. -/
theorem sem_post_below_limit (lot0 : ParkingLot) (name : String) (spots queueSize : Int)
    (hs : spots ≤ SEM_VALUE_MAX) (hq : queueSize ≤ SEM_VALUE_MAX)
    (es : List LotEvent) (s : LotState)
    (hrun : lotRun (initLot lot0 name spots queueSize) es = some s) :
    (0 < s.parked + s.leaving → s.lot.available_spots < SEM_VALUE_MAX)
      ∧ (0 < s.granted → s.lot.waiting_slots < SEM_VALUE_MAX) := by
  have h := lotInv_run (lotInv_init lot0 name spots queueSize) hrun
  have h1 := h.spots_sum
  have h2 := h.queue_sum
  simp only [SEM_VALUE_MAX] at hs hq ⊢
  constructor
  · intro hpos
    omega
  · intro hpos
    omega

/-- C30 as stated fails on the code: on a lot just initialised with 2147483647
spots the free spots are at `SEM_VALUE_MAX`; the `sem_post` of a release fails
and the free spots stay 2147483647 while `current_spots` drops to -1, so the
sum is no longer `max_spots`. -/
theorem release_at_limit_keeps_free_spots :
    lotAtLimit.available_spots = 2147483647
      ∧ lotAtLimit.max_spots = 2147483647
      ∧ lotAtLimit.current_spots = 0
      ∧ (use_and_release_parking_limited lotAtLimit carA).available_spots = 2147483647
      ∧ (use_and_release_parking_limited lotAtLimit carA).current_spots = -1
      ∧ ((use_and_release_parking_limited lotAtLimit carA).available_spots : Int)
            + (use_and_release_parking_limited lotAtLimit carA).current_spots
          = 2147483646 := by
  decide

/-- C30, amended: in every state with `current_spots` above the least `int` and
the free spots below `SEM_VALUE_MAX`, `use_and_release_parking` lowers
`current_spots` by one and raises the free spots by one with no check, so it
keeps `freeSpots + current_spots` as it is; on a lot just initialised with
`0 <= spots < SEM_VALUE_MAX`, where nothing is reserved, it gives
`current_spots == -1` and `freeSpots == max_spots + 1`, outside the bound
`freeSpots <= max_spots`; with the free spots at `SEM_VALUE_MAX` they stay as
they are. -/
theorem release_unguarded (lot : ParkingLot) (v : Vehicle)
    (_hmin : INT_MIN < lot.current_spots) (hlim : lot.available_spots < SEM_VALUE_MAX) :
    (use_and_release_parking_limited lot v).current_spots = lot.current_spots - 1
      ∧ (use_and_release_parking_limited lot v).available_spots = lot.available_spots + 1
      ∧ (use_and_release_parking_limited lot v).waiting_slots = lot.waiting_slots
      ∧ (use_and_release_parking_limited lot v).max_spots = lot.max_spots
      ∧ ((use_and_release_parking_limited lot v).available_spots : Int)
            + (use_and_release_parking_limited lot v).current_spots
          = (lot.available_spots : Int) + lot.current_spots
      ∧ use_and_release_parking_limited lot v = use_and_release_parking lot v
      ∧ (∀ (lot0 : ParkingLot) (name : String) (spots queueSize : Int),
          0 ≤ spots → spots < SEM_VALUE_MAX →
          (use_and_release_parking_limited
              (init_parking_lot lot0 name spots queueSize) v).current_spots = -1
            ∧ ((use_and_release_parking_limited
                  (init_parking_lot lot0 name spots queueSize) v).available_spots : Int)
              = (init_parking_lot lot0 name spots queueSize).max_spots + 1
            ∧ ((use_and_release_parking_limited
                  (init_parking_lot lot0 name spots queueSize) v).available_spots : Int)
                + (use_and_release_parking_limited
                    (init_parking_lot lot0 name spots queueSize) v).current_spots
              = (init_parking_lot lot0 name spots queueSize).max_spots
            ∧ ¬ ((use_and_release_parking_limited
                  (init_parking_lot lot0 name spots queueSize) v).available_spots : Int)
                ≤ (use_and_release_parking_limited
                    (init_parking_lot lot0 name spots queueSize) v).max_spots)
      ∧ (∀ full : ParkingLot, full.available_spots = SEM_VALUE_MAX →
          (use_and_release_parking_limited full v).available_spots = full.available_spots) := by
  have hpost : sem_post_limited lot.available_spots = lot.available_spots + 1 := by
    simp [sem_post_limited, hlim]
  refine ⟨rfl, ?_, rfl, rfl, ?_, use_and_release_parking_limited_eq lot v hlim, ?_, ?_⟩
  · simp [use_and_release_parking_limited, dec_current_spots, hpost]
  · simp only [use_and_release_parking_limited, dec_current_spots, hpost]
    push_cast
    ring
  · intro lot0 name spots queueSize hs hmax
    have hnat : spots.toNat < SEM_VALUE_MAX := by
      have := Int.toNat_of_nonneg hs
      omega
    have hp : sem_post_limited spots.toNat = spots.toNat + 1 := by
      simp [sem_post_limited, hnat]
    simp only [use_and_release_parking_limited, dec_current_spots, init_parking_lot, hp]
    push_cast
    have hcast : ((spots.toNat : Nat) : Int) = spots := Int.toNat_of_nonneg hs
    clear hpost hp hnat hmax hlim _hmin
    refine ⟨trivial, ?_, ?_, ?_⟩ <;> omega
  · intro full hfull
    simp [use_and_release_parking_limited, dec_current_spots, sem_post_limited, hfull]

/-- Witness of C30 (amended): a release on the F10 lot as initialised by `main`. -/
theorem release_unguarded_witness :
    INT_MIN < (init_parking_lot rawLot "F10 Parking Lot" 10 5).current_spots
      ∧ (init_parking_lot rawLot "F10 Parking Lot" 10 5).available_spots < SEM_VALUE_MAX
      ∧ (use_and_release_parking_limited
            (init_parking_lot rawLot "F10 Parking Lot" 10 5) carA).current_spots
          = (init_parking_lot rawLot "F10 Parking Lot" 10 5).current_spots - 1
      ∧ (use_and_release_parking_limited
            (init_parking_lot rawLot "F10 Parking Lot" 10 5) carA).available_spots
          = (init_parking_lot rawLot "F10 Parking Lot" 10 5).available_spots + 1 :=
  ⟨by decide, by decide,
    (release_unguarded (init_parking_lot rawLot "F10 Parking Lot" 10 5) carA
      (by decide) (by decide)).1,
    (release_unguarded (init_parking_lot rawLot "F10 Parking Lot" 10 5) carA
      (by decide) (by decide)).2.1⟩

/-! ## The calls of a vehicle thread -/

/-- C25 (call discipline by construction): the calls of `vehicle_thread_func`
contain exactly one `enter_intersection`, directly followed by exactly one
`leave_intersection`, both on the intersection of `originIntersection`; a
`reserve_parking_spot` comes before them and only on the lot of the origin; and
after the leave comes exactly one `use_and_release_parking`, on that lot, if
`reserve_parking_spot` was called and returned true, and none otherwise. -/
theorem call_discipline (v : Vehicle) (r : Bool) :
    ∃ pre post : List Op,
      vehicle_thread_func v r
        = pre ++ [Op.enter_intersection v.originIntersection,
                  Op.leave_intersection v.originIntersection] ++ post
      ∧ (∀ op ∈ pre ++ post, op.isEnter = false ∧ op.isLeave = false)
      ∧ (∀ op ∈ pre, op.isRelease = false)
      ∧ (∀ op ∈ post, op.isReserve = false)
      ∧ (∀ op ∈ pre, op.isReserve = true →
          op = Op.reserve_parking_spot v.originIntersection r)
      ∧ (pre.filter Op.isReserve).length ≤ 1
      ∧ post.filter Op.isRelease
          = (if Op.reserve_parking_spot v.originIntersection true ∈ pre
              then [Op.use_and_release_parking v.originIntersection] else []) := by
  obtain ⟨id, t, p, a, o, d, dir, wp⟩ := v
  simp only [vehicle_thread_func]
  generalize (wp && t != VehicleType.Ambulance && t != VehicleType.FireTruck) = asks
  generalize ((t == VehicleType.Ambulance || t == VehicleType.FireTruck) && o != d) = cross
  refine ⟨(if asks = true then [Op.reserve_parking_spot o r] else [])
          ++ (if cross = true then [Op.notify_emergency_from_to o d] else []),
          (if cross = true then [Op.set_emergency_preempt d false] else [])
          ++ (if (asks && r) = true then [Op.use_and_release_parking o] else []),
          ?_, ?_, ?_, ?_, ?_, ?_, ?_⟩
  all_goals
    cases asks <;> cases cross <;> cases r <;>
      simp [Op.isEnter, Op.isLeave, Op.isRelease, Op.isReserve]

/-- The thread of an emergency vehicle makes no parking call. -/
theorem emergency_calls (v : Vehicle) (r : Bool)
    (he : v.type = VehicleType.Ambulance ∨ v.type = VehicleType.FireTruck) :
    vehicle_thread_func v r
        = [Op.notify_emergency_from_to v.originIntersection v.destIntersection,
           Op.enter_intersection v.originIntersection,
           Op.leave_intersection v.originIntersection,
           Op.set_emergency_preempt v.destIntersection false]
      ∨ vehicle_thread_func v r
        = [Op.enter_intersection v.originIntersection,
           Op.leave_intersection v.originIntersection] := by
  by_cases hne : v.originIntersection = v.destIntersection
  · right
    rcases he with h | h <;> simp [vehicle_thread_func, h, hne]
  · left
    rcases he with h | h <;> simp [vehicle_thread_func, h, hne]

/-- A call that is neither a reserve nor a release leaves both lots as they are. -/
theorem exec_keeps_lots {v : Vehicle} {w w1 : World} {op : Op}
    (h1 : op.isReserve = false) (h2 : op.isRelease = false) (h : exec v w op = some w1) :
    w1.F10_parking = w.F10_parking ∧ w1.F11_parking = w.F11_parking := by
  cases op with
  | reserve_parking_spot lot result => simp [Op.isReserve] at h1
  | notify_emergency_from_to a b =>
    simp only [exec, Option.some.injEq] at h
    subst h
    cases a <;> cases b <;>
      simp [notify_emergency_from_to, set_emergency_preempt, World.setIntersection]
  | enter_intersection jd =>
    simp only [exec, enter_intersection_nil] at h
    by_cases ha : admitted (w.intersection jd) v = true
    · simp only [ha, if_true, Option.map_some', Option.some.injEq] at h
      subst h
      cases jd <;> simp [World.setIntersection]
    · simp [ha] at h
  | leave_intersection jd =>
    simp only [exec, Option.some.injEq] at h
    subst h
    cases jd <;> simp [World.setIntersection]
  | set_emergency_preempt jd b =>
    simp only [exec, Option.some.injEq] at h
    subst h
    cases jd <;> simp [set_emergency_preempt, World.setIntersection]
  | use_and_release_parking lot => simp [Op.isRelease] at h2

theorem execOps_keeps_lots {v : Vehicle} {ops : List Op} :
    ∀ {w w1 : World}, (∀ op ∈ ops, op.isReserve = false ∧ op.isRelease = false) →
      execOps v w ops = some w1 →
      w1.F10_parking = w.F10_parking ∧ w1.F11_parking = w.F11_parking := by
  induction ops with
  | nil =>
    intro w w1 _ h
    simp [execOps] at h
    subst h
    exact ⟨rfl, rfl⟩
  | cons op ops ih =>
    intro w w1 hops h
    simp only [execOps] at h
    cases he : exec v w op with
    | none => simp [he] at h
    | some w2 =>
      simp [he] at h
      have hop := hops op (List.mem_cons_self _ _)
      have h2 := exec_keeps_lots hop.1 hop.2 he
      have h3 := ih (fun o ho => hops o (List.mem_cons_of_mem _ ho)) h
      exact ⟨h3.1.trans h2.1, h3.2.trans h2.2⟩

theorem rand_int_range (r : Nat) (n : Int) (hn : 0 ≤ n) :
    0 ≤ rand_int 0 n r ∧ rand_int 0 n r ≤ n := by
  unfold rand_int
  have h1 : (0 : Int) < n - 0 + 1 := by omega
  have h2 := Int.emod_nonneg (r : Int) (ne_of_gt h1)
  have h3 := Int.emod_lt_of_pos (r : Int) h1
  omega

/-- C28 (emergency vehicles never interact with parking): for an Ambulance or
FireTruck, whatever `wantsParking` is, `vehicle_thread_func` calls neither
`reserve_parking_spot` nor `use_and_release_parking` and its calls leave both
lots unchanged; and `make_random_vehicle` returns, for every outcome of its
draws, a vehicle with `wantsParking == false` when the type is Ambulance or
FireTruck. -/
theorem emergency_never_parks :
    (∀ (v : Vehicle) (r : Bool),
        (v.type = VehicleType.Ambulance ∨ v.type = VehicleType.FireTruck) →
        (∀ op ∈ vehicle_thread_func v r, op.isReserve = false ∧ op.isRelease = false)
          ∧ (∀ w w1 : World, execOps v w (vehicle_thread_func v r) = some w1 →
              w1.F10_parking = w.F10_parking ∧ w1.F11_parking = w.F11_parking))
      ∧ (∀ (id : Int) (d : Draws), ∃ v, make_random_vehicle id d = some v
          ∧ ((v.type = VehicleType.Ambulance ∨ v.type = VehicleType.FireTruck) →
              v.wantsParking = false)) := by
  constructor
  · intro v r he
    have hops : ∀ op ∈ vehicle_thread_func v r, op.isReserve = false ∧ op.isRelease = false := by
      intro op hop
      rcases emergency_calls v r he with h | h <;> rw [h] at hop <;> simp at hop
      · rcases hop with rfl | rfl | rfl | rfl <;> exact ⟨rfl, rfl⟩
      · rcases hop with rfl | rfl <;> exact ⟨rfl, rfl⟩
    exact ⟨hops, fun w w1 hrun => execOps_keeps_lots hops hrun⟩
  · intro id d
    have ht := rand_int_range d.typeRand 5 (by decide)
    have hd := rand_int_range d.dirRand 2 (by decide)
    have ht2 : rand_int 0 5 d.typeRand = 0 ∨ rand_int 0 5 d.typeRand = 1
        ∨ rand_int 0 5 d.typeRand = 2 ∨ rand_int 0 5 d.typeRand = 3
        ∨ rand_int 0 5 d.typeRand = 4 ∨ rand_int 0 5 d.typeRand = 5 := by omega
    have hd2 : rand_int 0 2 d.dirRand = 0 ∨ rand_int 0 2 d.dirRand = 1
        ∨ rand_int 0 2 d.dirRand = 2 := by omega
    rcases ht2 with h | h | h | h | h | h <;> rcases hd2 with g | g | g <;>
      simp [make_random_vehicle, h, g, vehicleTypeOfInt, directionOfInt]

/-- Witness of C28: an ambulance with `wantsParking` set makes no parking call. -/
theorem emergency_never_parks_witness :
    (ambulanceWantsParking.type = VehicleType.Ambulance
        ∨ ambulanceWantsParking.type = VehicleType.FireTruck)
      ∧ ambulanceWantsParking.wantsParking = true
      ∧ (∀ op ∈ vehicle_thread_func ambulanceWantsParking true,
          op.isReserve = false ∧ op.isRelease = false)
      ∧ (∃ v, make_random_vehicle 5 drawsFireTruck = some v
          ∧ ((v.type = VehicleType.Ambulance ∨ v.type = VehicleType.FireTruck) →
              v.wantsParking = false)) :=
  ⟨by decide, by decide,
    (emergency_never_parks.1 ambulanceWantsParking true (by decide)).1,
    emergency_never_parks.2 5 drawsFireTruck⟩

/-- Witness of C25: a bus that wants to park and whose reserve call returns true. -/
theorem call_discipline_witness :
    vehicle_thread_func busWantsParking true
        = [Op.reserve_parking_spot IntersectionId.F10 true,
           Op.enter_intersection IntersectionId.F10,
           Op.leave_intersection IntersectionId.F10,
           Op.use_and_release_parking IntersectionId.F10]
      ∧ ∃ pre post : List Op,
          vehicle_thread_func busWantsParking true
            = pre ++ [Op.enter_intersection busWantsParking.originIntersection,
                      Op.leave_intersection busWantsParking.originIntersection] ++ post
          ∧ (∀ op ∈ pre ++ post, op.isEnter = false ∧ op.isLeave = false)
          ∧ (∀ op ∈ pre, op.isRelease = false)
          ∧ (∀ op ∈ post, op.isReserve = false)
          ∧ (∀ op ∈ pre, op.isReserve = true →
              op = Op.reserve_parking_spot busWantsParking.originIntersection true)
          ∧ (pre.filter Op.isReserve).length ≤ 1
          ∧ post.filter Op.isRelease
              = (if Op.reserve_parking_spot busWantsParking.originIntersection true ∈ pre
                  then [Op.use_and_release_parking busWantsParking.originIntersection]
                  else []) :=
  ⟨by decide, call_discipline busWantsParking true⟩

end Traffic
